import Mathlib

/-!
Verification development for the interactive generalized-cylinder modeller
(`src/src/modeller/ImageModeller.cpp`).

The modeller's own code is embedded shallowly: real-valued quantities are
modelled over `ℚ`, pixel coordinates over `ℤ`.  Everything that lives outside
`ImageModeller.cpp` (the `CircleEstimator`, the camera/canvas services, the
image-sampling services, the `osg` math library's square root and
trigonometry) is passed in through an `Env` record of oracle functions, while
the control flow, state mutations and arithmetic of `ImageModeller.cpp`
itself are translated statement by statement.  Floating-point literals such
as `0.35` are represented by the exact rationals they denote in the source
text.
-/

/-- 2D vector / point with rational coordinates (models `osg::Vec2d`). -/
@[ext] structure Vec2 where
  x : ℚ
  y : ℚ
deriving DecidableEq, Repr

instance : Add Vec2 := ⟨fun a b => ⟨a.x + b.x, a.y + b.y⟩⟩
instance : Sub Vec2 := ⟨fun a b => ⟨a.x - b.x, a.y - b.y⟩⟩
instance : Neg Vec2 := ⟨fun a => ⟨-a.x, -a.y⟩⟩

/-- Scalar multiple of a 2D vector. -/
def v2smul (a : ℚ) (v : Vec2) : Vec2 := ⟨a * v.x, a * v.y⟩

/-- Dot product of 2D vectors (`osg::Vec2d::operator*`). -/
def dot2 (a b : Vec2) : ℚ := a.x * b.x + a.y * b.y

/-- Squared length of a 2D vector (`osg::Vec2d::length2`). -/
def len2 (v : Vec2) : ℚ := dot2 v v

/-- The zero 2D vector. -/
def v2zero : Vec2 := ⟨0, 0⟩

/-- 3D vector / point with rational coordinates (models `osg::Vec3d` /
`Eigen::Vector3d`). -/
@[ext] structure Vec3 where
  x : ℚ
  y : ℚ
  z : ℚ
deriving DecidableEq, Repr

instance : Add Vec3 := ⟨fun a b => ⟨a.x + b.x, a.y + b.y, a.z + b.z⟩⟩
instance : Neg Vec3 := ⟨fun a => ⟨-a.x, -a.y, -a.z⟩⟩

/-- Scalar multiple of a 3D vector. -/
def v3smul (a : ℚ) (v : Vec3) : Vec3 := ⟨a * v.x, a * v.y, a * v.z⟩

/-- Dot product of 3D vectors. -/
def dot3 (a b : Vec3) : ℚ := a.x * b.x + a.y * b.y + a.z * b.z

/-- The zero 3D vector. -/
def v3zero : Vec3 := ⟨0, 0, 0⟩

/-- Integer pixel point (models `Point2D<int>` / `Vector2D<int>`). -/
@[ext] structure PointI where
  x : ℤ
  y : ℤ
deriving DecidableEq, Repr

instance : Add PointI := ⟨fun a b => ⟨a.x + b.x, a.y + b.y⟩⟩
instance : Sub PointI := ⟨fun a b => ⟨a.x - b.x, a.y - b.y⟩⟩

/-- `static_cast<int>` applied to a real quantity: truncation toward zero. -/
def truncQ (q : ℚ) : ℤ := if 0 ≤ q then ⌊q⌋ else ⌈q⌉

/-- Modelled from the spec: `Circle3D` (file `src/geometry/Circle3D.hpp` is
not part of the sources) — a 3D circle given by center, normal and radius,
default-initialized to zeros. -/
structure Circle3D where
  center : Vec3
  normal : Vec3
  radius : ℚ
deriving DecidableEq, Repr

/-- The default-constructed circle (used for `Circle3D` members before any
estimation has run). -/
def circleZero : Circle3D := ⟨v3zero, v3zero, 0⟩

/-- Modelled from the spec: `Ellipse2D` (file `src/geometry/Ellipse2D.hpp` is
not part of the sources) — geometric form of the base ellipse: center,
semi-axis lengths and the four axis-endpoint samples `points[0..3]`
(`p0`,`p1` = major-axis endpoints, `p2`,`p3` = minor-axis endpoints).
The algebraic coefficients are consumed only by the external estimator and
are therefore left inside the estimation oracles. -/
structure Ellipse2D where
  center : Vec2
  smj_axis : ℚ
  smn_axis : ℚ
  p0 : Vec2
  p1 : Vec2
  p2 : Vec2
  p3 : Vec2
deriving DecidableEq, Repr

/-- The default-constructed ellipse. -/
def ellipseZero : Ellipse2D := ⟨v2zero, 0, 0, v2zero, v2zero, v2zero, v2zero⟩

/-- Modelled from the spec: `Segment2D` (file `src/geometry/Segment2D.hpp` is
not part of the sources) — two endpoints representing the projected major
axis of the current cross-section. -/
structure Segment2D where
  pt1 : Vec2
  pt2 : Vec2
deriving DecidableEq, Repr

/-- The default-constructed segment. -/
def segZero : Segment2D := ⟨v2zero, v2zero⟩

/-- Modelled from the spec: `GeneralizedCylinder` — a component identifier
plus the ordered tail-append sequence of cross-sections; constructed from the
first estimated circle, `AddPlanarSection` appends at the tail. -/
structure GeneralizedCylinder where
  componentId : ℕ
  sections : List Circle3D
deriving DecidableEq, Repr

/-- The drawing-mode states of the interaction state machine. -/
inductive DrawingMode where
  | mode_0
  | mode_1
  | mode_2
  | mode_3
deriving DecidableEq, Repr

/-- `spine_drawing_mode`. -/
inductive SpineDrawingMode where
  | piecewise_linear
  | continuous
deriving DecidableEq, Repr

/-- `spine_constraints`. -/
inductive SpineConstraints where
  | none
  | straight_planar
  | planar
deriving DecidableEq, Repr

/-- `component_type` (only `generalized_cylinder` is handled by
`model_update`). -/
inductive ComponentType where
  | generalized_cylinder
  | other
deriving DecidableEq, Repr

/-- `projection_type` selector passed to the spine-drawing initialisation. -/
inductive ProjectionType where
  | perspective
  | orthographic
  | orthogonality_constraint
deriving DecidableEq, Repr

/-- Oracle record for everything `ImageModeller.cpp` consumes from outside
itself: `ProjectionParameters`, the `CircleEstimator`, the camera/canvas,
the image-sampling services and real `sqrt`/trigonometry.  Each field
corresponds to one external call site; claims quantify over all oracles
unless a concrete witness is being evaluated. -/
structure Env where
  /-- `m_pp->near`. -/
  near : ℚ
  /-- `m_pp->far`. -/
  far : ℚ
  /-- whether the binary companion image was found (`m_bimg_exists`). -/
  use_bimage : Bool
  /-- real square root (used by `osg` `normalize`/`length`). -/
  sqrtQ : ℚ → ℚ
  /-- real arc cosine. -/
  acosQ : ℚ → ℚ
  /-- real cosine (for rotations about a segment midpoint). -/
  cosQ : ℚ → ℚ
  /-- real sine. -/
  sinQ : ℚ → ℚ
  /-- the constant `HALF_PI`. -/
  hpi : ℚ
  /-- `convert_ellipse_from_logical_device_coordinates_to_projected_coordinates`. -/
  convert_ellipse : Ellipse2D → Ellipse2D
  /-- `convert_segment_from_logical_device_coordinates_to_projected_coordinates`. -/
  convert_segment : Segment2D → Segment2D
  /-- `CircleEstimator::estimate_3d_circles_with_fixed_depth` on a
  projected-frame ellipse and desired depth: solution count plus the (up to)
  two candidate circles. -/
  est_fixed_depth : Ellipse2D → ℚ → ℕ × Circle3D × Circle3D
  /-- Modelled from the spec: the major-axis-only, depth-fixed estimator
  (`estimate_3d_circle_from_major_axis_when_circle_depth_is_fixed`, not part
  of the sources) solves for the circle's center and radius from the
  major-axis segment, keeping the normal and depth preset by the caller. -/
  est_major_axis_depth_fixed : Segment2D → ℚ → Circle3D → Vec3 × ℚ
  /-- `CircleEstimator::estimate_3d_circles_using_orthogonality_constraint`. -/
  est_orthogonality : Ellipse2D → Bool → Circle3D × Circle3D
  /-- `CircleEstimator::estimate_3d_circles_under_orthographic_projection`. -/
  est_ortho_single : Ellipse2D → ℚ → Circle3D
  /-- camera projection followed by the viewport window matrix
  (`UsrGetMainCamera`), mapping a camera-space point to screen space. -/
  project : Vec3 → Vec2
  /-- `Rectangle2D::intersect`: clips the cast ray's end point to the image
  bounds, `none` when the ray misses the image entirely. -/
  rect_clip : PointI → PointI → Option PointI
  /-- `BinaryImageRayCast`: first foreground hit along the ray, if any. -/
  braycast : PointI → PointI → Option PointI
  /-- `GradientImageRayCast`: strongest sampled gradient magnitude along the
  ray and its pixel index. -/
  graycast : PointI → PointI → ℚ × PointI
  /-- `m_gimage->GetPixel`. -/
  gpixel : PointI → ℚ
  /-- `OsgWxGLCanvas::UsrDeviceToLogical` on integer points. -/
  d2l : PointI → PointI
  /-- indeterminate contents of the uninitialized `Point2D<int> p1_hit`. -/
  junk : PointI
  /-- indeterminate contents of uninitialized `hit_val[i]` entries. -/
  junkV : ℕ → ℚ
  /-- indeterminate contents of uninitialized `hit_idx[i]` entries. -/
  junkI : ℕ → PointI

/-- `osg::Vec2d::normalize`: divide by the (oracle) length when it is
positive, otherwise leave the vector unchanged. -/
def osgNormalize2 (env : Env) (v : Vec2) : Vec2 :=
  let L := env.sqrtQ (len2 v)
  if 0 < L then ⟨v.x / L, v.y / L⟩ else v

/-- Modelled from the spec: `Segment2D::mid_point` — the midpoint query. -/
def seg_mid_point (sg : Segment2D) : Vec2 :=
  v2smul (1/2) (sg.pt1 + sg.pt2)

/-- Modelled from the spec: `Segment2D::half_length` — half the
endpoint-to-endpoint distance. -/
def seg_half_length (env : Env) (sg : Segment2D) : ℚ :=
  env.sqrtQ (len2 (sg.pt2 - sg.pt1)) / 2

/-- Modelled from the spec: `Segment2D::direction` — the normalized
direction query. -/
def seg_direction (env : Env) (sg : Segment2D) : Vec2 :=
  osgNormalize2 env (sg.pt2 - sg.pt1)

/-- Modelled from the spec: `Segment2D::translate` — translate both
endpoints. -/
def seg_translate (sg : Segment2D) (v : Vec2) : Segment2D :=
  ⟨sg.pt1 + v, sg.pt2 + v⟩

/-- Modelled from the spec: `Segment2D::rotate` — rotation of the segment
about its midpoint by the given angle (cosine/sine through the oracles). -/
def seg_rotate (env : Env) (sg : Segment2D) (ang : ℚ) : Segment2D :=
  let m := seg_mid_point sg
  let c := env.cosQ ang
  let sn := env.sinQ ang
  let rot := fun (p : Vec2) =>
    m + ⟨c * (p - m).x - sn * (p - m).y, sn * (p - m).x + c * (p - m).y⟩
  ⟨rot sg.pt1, rot sg.pt2⟩

/-- Modelled from the spec: `Ellipse2D::update_major_axis` — store the two
clicked points as the major-axis endpoints, the center as their midpoint and
the semi-major length as half their distance. -/
def update_major_axis (env : Env) (e : Ellipse2D) (q0 q1 : Vec2) : Ellipse2D :=
  let c := v2smul (1/2) (q0 + q1)
  { e with p0 := q0, p1 := q1, center := c,
           smj_axis := env.sqrtQ (len2 (q1 - c)) }

/-- Modelled from the spec: `Ellipse2D::update_minor_axis` — the minor axis
is updated to the given point: it becomes the drawn minor-axis endpoint
`points[2]`, its mirror through the center becomes `points[3]`, and the
semi-minor length is its distance to the center. -/
def update_minor_axis (env : Env) (e : Ellipse2D) (q : Vec2) : Ellipse2D :=
  { e with p2 := q, p3 := e.center + (e.center - q),
           smn_axis := env.sqrtQ (len2 (q - e.center)) }

/-- The modulus of the source's `unsigned int` id counter (C++ unsigned
arithmetic wraps modulo `2 ^ 32`). -/
def uintCardinal : ℕ := 2 ^ 32

/-- `ImageModeller::GenerateComponentId`: the static `unsigned int` counter
is pre-incremented — wrapping modulo `2 ^ 32` as C++ unsigned arithmetic
does — and its new value returned; the pair is (returned id, new counter
value). -/
def GenerateComponentId (counter : ℕ) : ℕ × ℕ :=
  ((counter + 1) % uintCardinal, (counter + 1) % uintCardinal)

/-- `ImageModeller`'s mutable members that the modelling logic reads or
writes (display-only members such as `m_uihelper` and `m_raycast` carry no
model state and are omitted). -/
structure MState where
  mode : DrawingMode
  left_click : Bool
  right_click : Bool
  vertices : List Vec2
  mouse : Vec2
  first_ellipse : Ellipse2D
  lsegment : Segment2D
  dsegment : Segment2D
  first_circle : Circle3D
  last_circle : Circle3D
  tvec : Vec2
  gcyl : Option GeneralizedCylinder
  spd_mode : SpineDrawingMode
  sp_constraints : SpineConstraints
  comp_type : ComponentType
  id_source : ℕ
  fixed_depth : ℚ
  scale_factor : ℚ
  angle_correction : ℚ
deriving DecidableEq, Repr

/-- The state set up by the `ImageModeller` constructor together with
`Initialize2DDrawingInterface` (empty vertex array); `counter` is the current
value of the process-wide static id counter. -/
def initState (env : Env) (counter : ℕ) : MState where
  mode := .mode_0
  left_click := false
  right_click := false
  vertices := []
  mouse := v2zero
  first_ellipse := ellipseZero
  lsegment := segZero
  dsegment := segZero
  first_circle := circleZero
  last_circle := circleZero
  tvec := v2zero
  gcyl := none
  spd_mode := .piecewise_linear
  sp_constraints := .none
  comp_type := .generalized_cylinder
  id_source := counter
  fixed_depth := -(env.near + env.far) / 2
  scale_factor := 7/20
  angle_correction := 0

/-- Pixel position of `m_dsegment->pt1` after the device-to-logical
transform (step 1 of both ray-cast routines). -/
def rc_p0 (env : Env) (ds : Segment2D) : PointI :=
  env.d2l ⟨truncQ ds.pt1.x, truncQ ds.pt1.y⟩

/-- Pixel position of `m_dsegment->pt2` after the device-to-logical
transform. -/
def rc_p1 (env : Env) (ds : Segment2D) : PointI :=
  env.d2l ⟨truncQ ds.pt2.x, truncQ ds.pt2.y⟩

/-- The casting direction vector scaled by `sf` (0.35 in the binary path,
`m_scale_factor` in the gradient path), truncated to ints. -/
def rc_dir (env : Env) (sf : ℚ) (ds : Segment2D) : PointI :=
  ⟨truncQ ((((rc_p1 env ds).x - (rc_p0 env ds).x : ℤ) : ℚ) * sf),
   truncQ ((((rc_p1 env ds).y - (rc_p0 env ds).y : ℤ) : ℚ) * sf)⟩

/-- Start and end point of ray `i` (0: `p0`→center, 1: `p0`→outside,
2: `p1`→center, 3: `p1`→outside). -/
def rc_ray_ep (env : Env) (sf : ℚ) (ds : Segment2D) (i : ℕ) : PointI × PointI :=
  let p0 := rc_p0 env ds
  let p1 := rc_p1 env ds
  let dir := rc_dir env sf ds
  match i with
  | 0 => (p0, p0 + dir)
  | 1 => (p0, p0 - dir)
  | 2 => (p1, p1 - dir)
  | _ => (p1, p1 + dir)

/-- Result of binary ray cast `i`: the first foreground hit along the
clipped ray, `none` when the ray misses the image or nothing is hit
(`hit_result[i]` stays `false`). -/
def bin_hit (env : Env) (ds : Segment2D) (i : ℕ) : Option PointI :=
  let ep := rc_ray_ep env (7/20) ds i
  (env.rect_clip ep.1 ep.2).bind (env.braycast ep.1)

/-- `ImageModeller::ray_cast_within_binary_image_for_profile_match`,
restricted to its effect on `m_dsegment` (the only state it mutates). -/
def ray_cast_within_binary_image_for_profile_match (env : Env) (ds : Segment2D) : Segment2D :=
  let p0 := rc_p0 env ds
  let p1 := rc_p1 env ds
  let r0 := bin_hit env ds 0
  let r1 := bin_hit env ds 1
  let r2 := bin_hit env ds 2
  let r3 := bin_hit env ds 3
  let p0_hit := if r0.isSome ∧ r1.isSome then p0
                else if r0.isSome then r0.getD env.junk
                else if r1.isSome then r1.getD env.junk
                else p0
  let p0_hit := env.d2l p0_hit
  let p1_hit := if r2.isSome ∧ r3.isSome then p1
                else if r2.isSome then r2.getD env.junk
                else if r3.isSome then r3.getD env.junk
                else env.junk
  let p1_hit := env.d2l p1_hit
  if (r0.isSome ∨ r1.isSome) ∧ (r2.isSome ∨ r3.isSome) then
    let np0 : Vec2 := ⟨(p0_hit.x : ℚ), (p0_hit.y : ℚ)⟩
    ⟨np0, ds.pt2 + (ds.pt1 - np0)⟩
  else if r0.isSome ∨ r1.isSome then
    let np0 : Vec2 := ⟨(p0_hit.x : ℚ), (p0_hit.y : ℚ)⟩
    ⟨np0, ds.pt2 + (ds.pt1 - np0)⟩
  else if r2.isSome ∨ r3.isSome then
    let np1 : Vec2 := ⟨(p1_hit.x : ℚ), (p1_hit.y : ℚ)⟩
    ⟨ds.pt1 + (ds.pt2 - np1), np1⟩
  else ds

/-- Sampled gradient magnitude of ray cast `i` (`hit_val[i]`; indeterminate
when the ray misses the image and the variable stays uninitialized). -/
def grad_hv (env : Env) (sf : ℚ) (ds : Segment2D) (i : ℕ) : ℚ :=
  let ep := rc_ray_ep env sf ds i
  match env.rect_clip ep.1 ep.2 with
  | some e => (env.graycast ep.1 e).1
  | none => env.junkV i

/-- Pixel index of the strongest sample of ray cast `i` (`hit_idx[i]`). -/
def grad_hi (env : Env) (sf : ℚ) (ds : Segment2D) (i : ℕ) : PointI :=
  let ep := rc_ray_ep env sf ds i
  match env.rect_clip ep.1 ep.2 with
  | some e => (env.graycast ep.1 e).2
  | none => env.junkI i

/-- `ImageModeller::ray_cast_within_gradient_image_for_profile_match`,
restricted to its effect on `m_dsegment` (the ray-display branch touches no
model state). -/
def ray_cast_within_gradient_image_for_profile_match (env : Env) (sf : ℚ) (ds : Segment2D) : Segment2D :=
  let p0 := rc_p0 env ds
  let p1 := rc_p1 env ds
  let hv0 := grad_hv env sf ds 0
  let hv1 := grad_hv env sf ds 1
  let hv2 := grad_hv env sf ds 2
  let hv3 := grad_hv env sf ds 3
  let p0val := env.gpixel p0
  let p1val := env.gpixel p1
  let pr0 : Bool × PointI :=
    if hv0 > p0val ∧ hv1 > p0val then
      (true, if hv0 > hv1 then grad_hi env sf ds 0 else grad_hi env sf ds 1)
    else if hv0 > p0val then (true, grad_hi env sf ds 0)
    else if hv1 > p0val then (true, grad_hi env sf ds 1)
    else (false, p0)
  let p0_hit := env.d2l pr0.2
  let pr1 : Bool × PointI :=
    if hv2 > p1val ∧ hv3 > p1val then
      (true, if hv2 > hv3 then grad_hi env sf ds 2 else grad_hi env sf ds 3)
    else if hv2 > p1val then (true, grad_hi env sf ds 2)
    else if hv3 > p1val then (true, grad_hi env sf ds 3)
    else (false, p1)
  let p1_hit := env.d2l pr1.2
  if pr0.1 ∧ pr1.1 then
    let np0 : Vec2 := ⟨(p0_hit.x : ℚ), (p0_hit.y : ℚ)⟩
    ⟨np0, ds.pt2 + (ds.pt1 - np0)⟩
  else if pr0.1 then
    let np0 : Vec2 := ⟨(p0_hit.x : ℚ), (p0_hit.y : ℚ)⟩
    ⟨np0, ds.pt2 + (ds.pt1 - np0)⟩
  else if pr1.1 then
    let np1 : Vec2 := ⟨(p1_hit.x : ℚ), (p1_hit.y : ℚ)⟩
    ⟨ds.pt1 + (ds.pt2 - np1), np1⟩
  else ds

/-- `ImageModeller::update_dynamic_segment_with_mirror_point`. -/
def update_dynamic_segment_with_mirror_point (ds : Segment2D) (pt : Vec2) (first : Bool) : Segment2D :=
  if first then ⟨pt, ds.pt2 + (ds.pt1 - pt)⟩
  else ⟨ds.pt1 + (ds.pt2 - pt), pt⟩

/-- The perpendicular `(-y, x)` of the major-axis vector `points[1] -
points[0]`, before normalization (`vec_mn` in `calculate_ellipse`). -/
def perpOf (e : Ellipse2D) : Vec2 :=
  ⟨-(e.p1 - e.p0).y, (e.p1 - e.p0).x⟩

/-- Start point `pt_0` of the minor-axis guide line computed by
`calculate_ellipse`. -/
def minor_guide_pt0 (env : Env) (e : Ellipse2D) : Vec2 :=
  e.center - v2smul e.smj_axis (osgNormalize2 env (perpOf e))

/-- End point `pt_1` of the minor-axis guide line computed by
`calculate_ellipse`. -/
def minor_guide_pt1 (env : Env) (e : Ellipse2D) : Vec2 :=
  e.center + v2smul e.smj_axis (osgNormalize2 env (perpOf e))

/-- The guide-line vector `pt_1 - pt_0`. -/
def minor_guide_vec (env : Env) (e : Ellipse2D) : Vec2 :=
  minor_guide_pt1 env e - minor_guide_pt0 env e

/-- The scalar projection ratio of (mouse − guide start) onto
(guide end − guide start) computed by `calculate_ellipse`. -/
def minor_ratio (env : Env) (e : Ellipse2D) (mouse : Vec2) : ℚ :=
  let pt_0 := minor_guide_pt0 env e
  let pt_1 := minor_guide_pt1 env e
  dot2 (mouse - pt_0) (pt_1 - pt_0) / dot2 (pt_1 - pt_0) (pt_1 - pt_0)

/-- `ImageModeller::calculate_ellipse`: project the mouse onto the bounded
minor-axis guide segment and, only when the projection ratio lies in
`[0,1]`, update the base ellipse's minor axis to the projection point. -/
def calculate_ellipse (env : Env) (s : MState) : MState :=
  let e := s.first_ellipse
  let pt_0 := minor_guide_pt0 env e
  let pt_1 := minor_guide_pt1 env e
  let ratio := minor_ratio env e s.mouse
  if 0 ≤ ratio ∧ ratio ≤ 1 then
    let v2n := osgNormalize2 env (pt_1 - pt_0)
    let proj_point := v2smul (2 * ratio * e.smj_axis) v2n + pt_0
    { s with first_ellipse := update_minor_axis env e proj_point }
  else s

/-- `ImageModeller::update_dynamic_segment`: recompute the dynamic (preview)
segment from the last committed segment and the mouse position, then snap it
via the image-guided ray cast. -/
def update_dynamic_segment (env : Env) (s : MState) : MState :=
  let tvec := s.mouse - seg_mid_point s.lsegment
  let ds :=
    if s.sp_constraints = .straight_planar then
      seg_translate s.lsegment tvec
    else
      let dir := seg_direction env s.lsegment
      let angle := env.acosQ (dot2 tvec dir / env.sqrtQ (len2 tvec))
      let rotated :=
        if dir.x * tvec.y - dir.y * tvec.x > 0 then
          seg_rotate env s.lsegment (angle - env.hpi)
        else
          seg_rotate env s.lsegment (env.hpi - angle)
      seg_translate rotated tvec
  let ds :=
    if env.use_bimage then ray_cast_within_binary_image_for_profile_match env ds
    else ray_cast_within_gradient_image_for_profile_match env s.scale_factor ds
  { s with tvec := tvec, dsegment := ds }

/-- `ImageModeller::select_first_3d_circle`: screen-space disambiguation of
the two first-circle candidates (only `circles[0]` is inspected). -/
def select_first_3d_circle (env : Env) (e : Ellipse2D) (c0 : Circle3D) : ℕ :=
  let ctr := env.project c0.center
  let ntip := env.project (c0.center + c0.normal)
  let vec1 := ntip - ctr
  let vec2 := ctr - e.p2
  if dot2 vec1 vec2 < 0 then 0 else 1

/-- `ImageModeller::select_parallel_circle`: index of the candidate whose
normal has the larger absolute dot product with the last accepted circle's
normal (index 1 on ties). -/
def select_parallel_circle (last : Circle3D) (c0 c1 : Circle3D) : ℕ :=
  if |dot3 last.normal c0.normal| > |dot3 last.normal c1.normal| then 0 else 1

/-- The candidate circle chosen by `select_parallel_circle`. -/
def selected_parallel_circle (last : Circle3D) (c0 c1 : Circle3D) : Circle3D :=
  if select_parallel_circle last c0 c1 = 0 then c0 else c1

/-- `ImageModeller::estimate_first_circle_under_persective_projection`:
fixed-depth estimation of the base circle with twin-solution selection; on a
solution count of 0 an error is printed and `m_first_circle` keeps its stale
previous value, yet execution continues. -/
def estimate_first_circle_under_persective_projection (env : Env) (s : MState) : MState :=
  let r := env.est_fixed_depth (env.convert_ellipse s.first_ellipse) s.fixed_depth
  let fc :=
    if r.1 = 2 then
      if select_first_3d_circle env s.first_ellipse r.2.1 = 0 then r.2.1 else r.2.2
    else if r.1 = 1 then r.2.1
    else s.first_circle
  { s with first_circle := fc, last_circle := fc,
           angle_correction := env.acosQ fc.normal.z }

/-- `ImageModeller::estimate_first_circle_under_orthographic_projection`
(via `estimate_3d_circle_under_orthographic_projection`, which applies the
perspective rescale `fixed_depth / -near` to radius and center). -/
def estimate_first_circle_under_orthographic_projection (env : Env) (s : MState) : MState :=
  let c := env.est_ortho_single (env.convert_ellipse s.first_ellipse) (-env.near)
  let ratio := s.fixed_depth / -env.near
  let fc := { c with radius := c.radius * ratio, center := v3smul ratio c.center }
  { s with first_circle := fc, last_circle := fc }

/-- `ImageModeller::estimate_first_circle_under_orthogonality_constraint`. -/
def estimate_first_circle_under_orthogonality_constraint (env : Env) (s : MState) : MState :=
  let r := env.est_orthogonality (env.convert_ellipse s.first_ellipse) false
  let c := r.1
  let ratio := s.fixed_depth / c.center.z
  let fc := { c with radius := c.radius * ratio, center := v3smul ratio c.center }
  { s with first_circle := fc, last_circle := fc }

/-- `ImageModeller::add_planar_section_to_the_generalized_cylinder_under_perspective_projection`:
normal from the normalized spine tangent with sign continuity against the
tail section, depth fixed, center/radius from the major-axis estimator, then
tail append. -/
def add_planar_section_to_the_generalized_cylinder_under_perspective_projection
    (env : Env) (s : MState) : MState :=
  let tv := osgNormalize2 env s.tvec
  match s.gcyl with
  | none => s
  | some g =>
    let n0 : Vec3 := ⟨tv.x, tv.y, 0⟩
    let tailc := g.sections.getLast?.getD circleZero
    let n := if dot3 n0 tailc.normal < 0 then -n0 else n0
    let c := { s.last_circle with
               normal := n,
               center := ⟨s.last_circle.center.x, s.last_circle.center.y, s.fixed_depth⟩ }
    let seg := env.convert_segment s.lsegment
    let er := env.est_major_axis_depth_fixed seg (-env.near) c
    let c := { c with center := er.1, radius := er.2 }
    { s with tvec := tv, last_circle := c,
             gcyl := some { g with sections := g.sections ++ [c] } }

/-- `ImageModeller::add_planar_section_to_the_generalized_cylinder_under_orthographic_projection`:
radius from the semi-major length, center rescaled to the fixed depth,
normal from the spine tangent with sign continuity, then tail append. -/
def add_planar_section_to_the_generalized_cylinder_under_orthographic_projection
    (env : Env) (s : MState) : MState :=
  let seg := env.convert_segment s.lsegment
  let k := s.fixed_depth / -env.near
  let rad := seg_half_length env seg * k
  let ctr := seg_mid_point seg
  let center : Vec3 := ⟨ctr.x * k, ctr.y * k, -env.near * k⟩
  let tv := osgNormalize2 env s.tvec
  match s.gcyl with
  | none => s
  | some g =>
    let n0 : Vec3 := ⟨tv.x, tv.y, 0⟩
    let tailc := g.sections.getLast?.getD circleZero
    let n := if dot3 n0 tailc.normal < 0 then -n0 else n0
    let c : Circle3D := ⟨center, n, rad⟩
    { s with tvec := tv, last_circle := c,
             gcyl := some { g with sections := g.sections ++ [c] } }

/-- `ImageModeller::add_planar_section_to_the_generalized_cylinder_under_orthogonality_constraint`:
when the cylinder still has a single section, the first circle is
re-estimated under the orthogonality constraint and written back in place;
afterwards the new section is built as in the orthographic variant (with
sign continuity against the cylinder's tail) and appended. -/
def add_planar_section_to_the_generalized_cylinder_under_orthogonality_constraint
    (env : Env) (s : MState) : MState :=
  let seg := env.convert_segment s.lsegment
  match s.gcyl with
  | none => s
  | some g =>
    let fg :=
      if g.sections.length = 1 then
        let elp := { env.convert_ellipse s.first_ellipse with p3 := seg_mid_point seg }
        let c0 := (env.est_orthogonality elp true).1
        let ratio := s.fixed_depth / c0.center.z
        let fc := { c0 with radius := c0.radius * ratio, center := v3smul ratio c0.center }
        (fc, { g with sections := g.sections.set 0 fc })
      else (s.first_circle, g)
    let k := s.fixed_depth / -env.near
    let rad := seg_half_length env seg * k
    let ctr := seg_mid_point seg
    let center : Vec3 := ⟨ctr.x * k, ctr.y * k, -env.near * k⟩
    let tv := osgNormalize2 env s.tvec
    let n0 : Vec3 := ⟨tv.x, tv.y, 0⟩
    let tailc := fg.2.sections.getLast?.getD circleZero
    let n := if dot3 n0 tailc.normal < 0 then -n0 else n0
    let c : Circle3D := ⟨center, n, rad⟩
    { s with first_circle := fg.1, tvec := tv, last_circle := c,
             gcyl := some { fg.2 with sections := fg.2.sections ++ [c] } }

/-- `ImageModeller::initialize_spine_drawing_mode` (the name is shortened
here): snap the third vertex to its guide-line projection, seed the last
segment from the base ellipse's major axis, estimate the first circle under
the chosen projection strategy, and create the new `GeneralizedCylinder`
carrying the next component id. -/
def init_spine_drawing_mode (env : Env) (pt : ProjectionType) (s : MState) : MState :=
  let s := { s with vertices := s.vertices.set 2 s.first_ellipse.p2 }
  let s := { s with lsegment := ⟨s.first_ellipse.p0, s.first_ellipse.p1⟩ }
  let s := { s with gcyl := none }
  let s :=
    if pt = .perspective then estimate_first_circle_under_persective_projection env s
    else if pt = .orthographic then estimate_first_circle_under_orthographic_projection env s
    else s
  let s :=
    if pt = .orthogonality_constraint then
      estimate_first_circle_under_orthogonality_constraint env s
    else s
  let r := GenerateComponentId s.id_source
  { s with id_source := r.2, gcyl := some ⟨r.1, [s.first_circle]⟩ }

/-- `ImageModeller::Reset2DDrawingInterface`: back to `mode_0`, click
latches cleared, accumulated vertices cleared. -/
def Reset2DDrawingInterface (s : MState) : MState :=
  { s with mode := .mode_0, left_click := false, right_click := false, vertices := [] }

/-- `ImageModeller::model_update`: the core of the interaction state
machine.  The continuous-spine branch of `mode_3` is entirely commented out
in the source, so it performs no action; the piecewise-linear branch always
recomputes the dynamic segment and commits it on clicks. -/
def model_update (env : Env) (s : MState) : MState :=
  if s.comp_type = .generalized_cylinder then
    if s.mode = .mode_0 then
      if s.left_click then { s with left_click := false, mode := .mode_1 } else s
    else if s.mode = .mode_1 then
      if s.left_click then
        { s with left_click := false,
                 first_ellipse :=
                   update_major_axis env s.first_ellipse
                     (s.vertices.getD 0 v2zero) (s.vertices.getD 1 v2zero),
                 mode := .mode_2 }
      else s
    else if s.mode = .mode_2 then
      let s1 := calculate_ellipse env s
      if s1.left_click then
        let s2 := init_spine_drawing_mode env .perspective { s1 with left_click := false }
        { s2 with mode := .mode_3 }
      else s1
    else
      if s.spd_mode = .continuous then s
      else
        let s1 := update_dynamic_segment env s
        if s1.right_click then
          let s2 := { s1 with right_click := false, lsegment := s1.dsegment }
          Reset2DDrawingInterface
            (add_planar_section_to_the_generalized_cylinder_under_perspective_projection env s2)
        else if s1.left_click then
          let s2 := { s1 with left_click := false, lsegment := s1.dsegment }
          add_planar_section_to_the_generalized_cylinder_under_perspective_projection env s2
        else s1
  else s

/-- A raw pointer event delivered by the windowing layer. -/
inductive Event where
  | lclick (x y : ℚ)
  | rclick (x y : ℚ)
  | move (x y : ℚ)
deriving DecidableEq, Repr

/-- Dispatch of one pointer event (`OnLeftClick` / `OnRightClick` /
`OnMouseMove`). -/
def stepEvent (env : Env) (e : Event) (s : MState) : MState :=
  match e with
  | .lclick x y =>
    model_update env
      { s with left_click := true, mouse := ⟨x, y⟩, vertices := s.vertices ++ [⟨x, y⟩] }
  | .rclick x y =>
    if s.mode = .mode_3 then
      model_update env
        { s with right_click := true, mouse := ⟨x, y⟩, vertices := s.vertices ++ [⟨x, y⟩] }
    else s
  | .move x y =>
    if s.mode ≠ .mode_0 then model_update env { s with mouse := ⟨x, y⟩ } else s

/-- Processing of a whole event sequence. -/
def run (env : Env) : List Event → MState → MState
  | [], s => s
  | e :: es, s => run env es (stepEvent env e s)

/-- An operation at the `ImageModeller` API level: a pointer event or one of
the deletion entry points (`DeleteModel` and `DeleteSelectedComopnents`
delegate to the external `ModelSolver` and touch no machine state;
`DeleteLastSection` drops the cylinder's tail section, a no-op on a
single-section cylinder as the spec prescribes for the external
`GeneralizedCylinder::DeleteLastSection`). -/
inductive Op where
  | ev (e : Event)
  | deleteModel
  | deleteSelected
  | deleteLastSection
deriving DecidableEq, Repr

/-- One API operation. -/
def stepOp (env : Env) (o : Op) (s : MState) : MState :=
  match o with
  | .ev e => stepEvent env e s
  | .deleteModel => s
  | .deleteSelected => s
  | .deleteLastSection =>
    match s.gcyl with
    | none => s
    | some g =>
      if g.sections.length ≤ 1 then s
      else { s with gcyl := some { g with sections := g.sections.dropLast } }

/-- The chronological list of component identifiers assigned while running
an operation sequence (a fresh identifier is assigned exactly when the
static counter changes; the wrapping increment `(c+1) % 2^32` never maps a
counter value to itself, so a change is exactly one `GenerateComponentId`
call). -/
def createdIds (env : Env) : List Op → MState → List ℕ
  | [], _ => []
  | o :: rest, s =>
    let s' := stepOp env o s
    (if s.id_source ≠ s'.id_source then
      match s'.gcyl with
      | some g => [g.componentId]
      | none => []
     else []) ++ createdIds env rest s'

/-- Spec-side definition: the orthogonal projection of point `m` onto the
line through `a` and `b`, written via the scalar projection ratio — the
"projection point on the guide segment" of §4.5. -/
def orthProjOnSegment (a b m : Vec2) : Vec2 :=
  v2smul (dot2 (m - a) (b - a) / dot2 (b - a) (b - a)) (b - a) + a

/-- Components of a 2D vector sum. -/
@[simp] lemma v2_add_x (a b : Vec2) : (a + b).x = a.x + b.x := rfl

@[simp] lemma v2_add_y (a b : Vec2) : (a + b).y = a.y + b.y := rfl

@[simp] lemma v2_sub_x (a b : Vec2) : (a - b).x = a.x - b.x := rfl

@[simp] lemma v2_sub_y (a b : Vec2) : (a - b).y = a.y - b.y := rfl

@[simp] lemma v2smul_x (a : ℚ) (v : Vec2) : (v2smul a v).x = a * v.x := rfl

@[simp] lemma v2smul_y (a : ℚ) (v : Vec2) : (v2smul a v).y = a * v.y := rfl

/-- Dot product with a negated left argument. -/
@[simp] lemma v3_neg_x (a : Vec3) : (-a).x = -a.x := rfl

@[simp] lemma v3_neg_y (a : Vec3) : (-a).y = -a.y := rfl

@[simp] lemma v3_neg_z (a : Vec3) : (-a).z = -a.z := rfl

@[simp] lemma dot3_neg_left (a b : Vec3) : dot3 (-a) b = -dot3 a b := by
  simp only [dot3, v3_neg_x, v3_neg_y, v3_neg_z]
  ring

/-- `update_dynamic_segment` only writes `m_tvec` and `m_dsegment`. -/
@[simp] lemma uds_mode (env : Env) (s : MState) :
    (update_dynamic_segment env s).mode = s.mode := rfl

@[simp] lemma uds_left_click (env : Env) (s : MState) :
    (update_dynamic_segment env s).left_click = s.left_click := rfl

@[simp] lemma uds_right_click (env : Env) (s : MState) :
    (update_dynamic_segment env s).right_click = s.right_click := rfl

@[simp] lemma uds_vertices (env : Env) (s : MState) :
    (update_dynamic_segment env s).vertices = s.vertices := rfl

@[simp] lemma uds_gcyl (env : Env) (s : MState) :
    (update_dynamic_segment env s).gcyl = s.gcyl := rfl

@[simp] lemma uds_first_circle (env : Env) (s : MState) :
    (update_dynamic_segment env s).first_circle = s.first_circle := rfl

@[simp] lemma uds_last_circle (env : Env) (s : MState) :
    (update_dynamic_segment env s).last_circle = s.last_circle := rfl

@[simp] lemma uds_lsegment (env : Env) (s : MState) :
    (update_dynamic_segment env s).lsegment = s.lsegment := rfl

@[simp] lemma uds_spd_mode (env : Env) (s : MState) :
    (update_dynamic_segment env s).spd_mode = s.spd_mode := rfl

@[simp] lemma uds_comp_type (env : Env) (s : MState) :
    (update_dynamic_segment env s).comp_type = s.comp_type := rfl

@[simp] lemma uds_id_source (env : Env) (s : MState) :
    (update_dynamic_segment env s).id_source = s.id_source := rfl

@[simp] lemma uds_sp_constraints (env : Env) (s : MState) :
    (update_dynamic_segment env s).sp_constraints = s.sp_constraints := rfl

@[simp] lemma uds_scale_factor (env : Env) (s : MState) :
    (update_dynamic_segment env s).scale_factor = s.scale_factor := rfl

@[simp] lemma uds_fixed_depth (env : Env) (s : MState) :
    (update_dynamic_segment env s).fixed_depth = s.fixed_depth := rfl

@[simp] lemma uds_mouse (env : Env) (s : MState) :
    (update_dynamic_segment env s).mouse = s.mouse := rfl

@[simp] lemma uds_first_ellipse (env : Env) (s : MState) :
    (update_dynamic_segment env s).first_ellipse = s.first_ellipse := rfl

/-- `calculate_ellipse` only (possibly) writes `m_first_ellipse`. -/
@[simp] lemma ce_mode (env : Env) (s : MState) :
    (calculate_ellipse env s).mode = s.mode := by
  simp only [calculate_ellipse]; split <;> rfl

@[simp] lemma ce_left_click (env : Env) (s : MState) :
    (calculate_ellipse env s).left_click = s.left_click := by
  simp only [calculate_ellipse]; split <;> rfl

@[simp] lemma ce_right_click (env : Env) (s : MState) :
    (calculate_ellipse env s).right_click = s.right_click := by
  simp only [calculate_ellipse]; split <;> rfl

@[simp] lemma ce_vertices (env : Env) (s : MState) :
    (calculate_ellipse env s).vertices = s.vertices := by
  simp only [calculate_ellipse]; split <;> rfl

@[simp] lemma ce_gcyl (env : Env) (s : MState) :
    (calculate_ellipse env s).gcyl = s.gcyl := by
  simp only [calculate_ellipse]; split <;> rfl

@[simp] lemma ce_first_circle (env : Env) (s : MState) :
    (calculate_ellipse env s).first_circle = s.first_circle := by
  simp only [calculate_ellipse]; split <;> rfl

@[simp] lemma ce_last_circle (env : Env) (s : MState) :
    (calculate_ellipse env s).last_circle = s.last_circle := by
  simp only [calculate_ellipse]; split <;> rfl

@[simp] lemma ce_lsegment (env : Env) (s : MState) :
    (calculate_ellipse env s).lsegment = s.lsegment := by
  simp only [calculate_ellipse]; split <;> rfl

@[simp] lemma ce_spd_mode (env : Env) (s : MState) :
    (calculate_ellipse env s).spd_mode = s.spd_mode := by
  simp only [calculate_ellipse]; split <;> rfl

@[simp] lemma ce_comp_type (env : Env) (s : MState) :
    (calculate_ellipse env s).comp_type = s.comp_type := by
  simp only [calculate_ellipse]; split <;> rfl

@[simp] lemma ce_id_source (env : Env) (s : MState) :
    (calculate_ellipse env s).id_source = s.id_source := by
  simp only [calculate_ellipse]; split <;> rfl

@[simp] lemma ce_mouse (env : Env) (s : MState) :
    (calculate_ellipse env s).mouse = s.mouse := by
  simp only [calculate_ellipse]; split <;> rfl

@[simp] lemma ce_sp_constraints (env : Env) (s : MState) :
    (calculate_ellipse env s).sp_constraints = s.sp_constraints := by
  simp only [calculate_ellipse]; split <;> rfl

@[simp] lemma ce_scale_factor (env : Env) (s : MState) :
    (calculate_ellipse env s).scale_factor = s.scale_factor := by
  simp only [calculate_ellipse]; split <;> rfl

@[simp] lemma ce_fixed_depth (env : Env) (s : MState) :
    (calculate_ellipse env s).fixed_depth = s.fixed_depth := by
  simp only [calculate_ellipse]; split <;> rfl

/-- Shorthand for the perspective section-append routine, local to the
following lemmas. -/
def add_persp (env : Env) (s : MState) : MState :=
  add_planar_section_to_the_generalized_cylinder_under_perspective_projection env s

@[simp] lemma add_persp_mode (env : Env) (s : MState) :
    (add_persp env s).mode = s.mode := by
  simp only [add_persp,
    add_planar_section_to_the_generalized_cylinder_under_perspective_projection]
  rcases s.gcyl with _ | g <;> rfl

@[simp] lemma add_persp_left_click (env : Env) (s : MState) :
    (add_persp env s).left_click = s.left_click := by
  simp only [add_persp,
    add_planar_section_to_the_generalized_cylinder_under_perspective_projection]
  rcases s.gcyl with _ | g <;> rfl

@[simp] lemma add_persp_right_click (env : Env) (s : MState) :
    (add_persp env s).right_click = s.right_click := by
  simp only [add_persp,
    add_planar_section_to_the_generalized_cylinder_under_perspective_projection]
  rcases s.gcyl with _ | g <;> rfl

@[simp] lemma add_persp_vertices (env : Env) (s : MState) :
    (add_persp env s).vertices = s.vertices := by
  simp only [add_persp,
    add_planar_section_to_the_generalized_cylinder_under_perspective_projection]
  rcases s.gcyl with _ | g <;> rfl

@[simp] lemma add_persp_first_circle (env : Env) (s : MState) :
    (add_persp env s).first_circle = s.first_circle := by
  simp only [add_persp,
    add_planar_section_to_the_generalized_cylinder_under_perspective_projection]
  rcases s.gcyl with _ | g <;> rfl

@[simp] lemma add_persp_spd_mode (env : Env) (s : MState) :
    (add_persp env s).spd_mode = s.spd_mode := by
  simp only [add_persp,
    add_planar_section_to_the_generalized_cylinder_under_perspective_projection]
  rcases s.gcyl with _ | g <;> rfl

@[simp] lemma add_persp_comp_type (env : Env) (s : MState) :
    (add_persp env s).comp_type = s.comp_type := by
  simp only [add_persp,
    add_planar_section_to_the_generalized_cylinder_under_perspective_projection]
  rcases s.gcyl with _ | g <;> rfl

@[simp] lemma add_persp_id_source (env : Env) (s : MState) :
    (add_persp env s).id_source = s.id_source := by
  simp only [add_persp,
    add_planar_section_to_the_generalized_cylinder_under_perspective_projection]
  rcases s.gcyl with _ | g <;> rfl

@[simp] lemma add_persp_mouse (env : Env) (s : MState) :
    (add_persp env s).mouse = s.mouse := by
  simp only [add_persp,
    add_planar_section_to_the_generalized_cylinder_under_perspective_projection]
  rcases s.gcyl with _ | g <;> rfl

@[simp] lemma add_persp_first_ellipse (env : Env) (s : MState) :
    (add_persp env s).first_ellipse = s.first_ellipse := by
  simp only [add_persp,
    add_planar_section_to_the_generalized_cylinder_under_perspective_projection]
  rcases s.gcyl with _ | g <;> rfl

/-- When a cylinder exists, the perspective append routine appends exactly
one section at the tail and keeps the component id. -/
lemma add_persp_gcyl_append (env : Env) (s : MState) (g : GeneralizedCylinder)
    (hg : s.gcyl = some g) :
    ∃ c, (add_persp env s).gcyl = some ⟨g.componentId, g.sections ++ [c]⟩ := by
  simp only [add_persp,
    add_planar_section_to_the_generalized_cylinder_under_perspective_projection, hg]
  exact ⟨_, rfl⟩

/-- `Reset2DDrawingInterface` projections. -/
@[simp] lemma reset_mode (s : MState) :
    (Reset2DDrawingInterface s).mode = .mode_0 := rfl

@[simp] lemma reset_left_click (s : MState) :
    (Reset2DDrawingInterface s).left_click = false := rfl

@[simp] lemma reset_right_click (s : MState) :
    (Reset2DDrawingInterface s).right_click = false := rfl

@[simp] lemma reset_vertices (s : MState) :
    (Reset2DDrawingInterface s).vertices = [] := rfl

@[simp] lemma reset_gcyl (s : MState) :
    (Reset2DDrawingInterface s).gcyl = s.gcyl := rfl

@[simp] lemma reset_first_circle (s : MState) :
    (Reset2DDrawingInterface s).first_circle = s.first_circle := rfl

@[simp] lemma reset_spd_mode (s : MState) :
    (Reset2DDrawingInterface s).spd_mode = s.spd_mode := rfl

@[simp] lemma reset_comp_type (s : MState) :
    (Reset2DDrawingInterface s).comp_type = s.comp_type := rfl

@[simp] lemma reset_id_source (s : MState) :
    (Reset2DDrawingInterface s).id_source = s.id_source := rfl

/-- First left-click: `mode_0` → `mode_1`, recording the point. -/
lemma stepEvent_lclick_mode0 (env : Env) (x y : ℚ) (s : MState)
    (h : s.mode = .mode_0) (hc : s.comp_type = .generalized_cylinder) :
    stepEvent env (.lclick x y) s =
      { s with left_click := false, mouse := ⟨x, y⟩,
               vertices := s.vertices ++ [⟨x, y⟩], mode := .mode_1 } := by
  simp [stepEvent, model_update, h, hc]

/-- Second left-click: `mode_1` → `mode_2`, fixing the major axis from the
first two recorded vertices. -/
lemma stepEvent_lclick_mode1 (env : Env) (x y : ℚ) (s : MState)
    (h : s.mode = .mode_1) (hc : s.comp_type = .generalized_cylinder) :
    stepEvent env (.lclick x y) s =
      { s with left_click := false, mouse := ⟨x, y⟩,
               vertices := s.vertices ++ [Vec2.mk x y],
               first_ellipse :=
                 update_major_axis env s.first_ellipse
                   ((s.vertices ++ [Vec2.mk x y]).getD 0 v2zero)
                   ((s.vertices ++ [Vec2.mk x y]).getD 1 v2zero),
               mode := .mode_2 } := by
  simp [stepEvent, model_update, h, hc]

/-- Third left-click: `mode_2` → `mode_3`; a fresh cylinder is created whose
single section is the (new) first circle, under the next component id. -/
lemma stepEvent_lclick_mode2 (env : Env) (x y : ℚ) (s : MState)
    (h : s.mode = .mode_2) (hc : s.comp_type = .generalized_cylinder) :
    (stepEvent env (.lclick x y) s).mode = .mode_3 ∧
    (stepEvent env (.lclick x y) s).left_click = false ∧
    (stepEvent env (.lclick x y) s).right_click = s.right_click ∧
    (stepEvent env (.lclick x y) s).spd_mode = s.spd_mode ∧
    (stepEvent env (.lclick x y) s).comp_type = s.comp_type ∧
    (stepEvent env (.lclick x y) s).id_source = (s.id_source + 1) % uintCardinal ∧
    (stepEvent env (.lclick x y) s).gcyl =
      some ⟨(s.id_source + 1) % uintCardinal,
        [(stepEvent env (.lclick x y) s).first_circle]⟩ := by
  simp [stepEvent, model_update, h, hc, init_spine_drawing_mode,
    estimate_first_circle_under_persective_projection, GenerateComponentId]

/-- Left-click in piecewise-linear `mode_3`: exactly one section is appended
at the cylinder's tail and the machine stays in `mode_3`. -/
lemma stepEvent_lclick_mode3 (env : Env) (x y : ℚ) (s : MState)
    (h : s.mode = .mode_3) (hc : s.comp_type = .generalized_cylinder)
    (hsp : s.spd_mode = .piecewise_linear) (hr : s.right_click = false)
    (g : GeneralizedCylinder) (hg : s.gcyl = some g) :
    (stepEvent env (.lclick x y) s).mode = .mode_3 ∧
    (stepEvent env (.lclick x y) s).left_click = false ∧
    (stepEvent env (.lclick x y) s).right_click = false ∧
    (stepEvent env (.lclick x y) s).spd_mode = .piecewise_linear ∧
    (stepEvent env (.lclick x y) s).comp_type = .generalized_cylinder ∧
    (stepEvent env (.lclick x y) s).id_source = s.id_source ∧
    (stepEvent env (.lclick x y) s).first_circle = s.first_circle ∧
    ∃ c, (stepEvent env (.lclick x y) s).gcyl =
      some ⟨g.componentId, g.sections ++ [c]⟩ := by
  have key : stepEvent env (.lclick x y) s =
      add_persp env
        { update_dynamic_segment env
            { s with left_click := true, mouse := ⟨x, y⟩,
                     vertices := s.vertices ++ [Vec2.mk x y] } with
          left_click := false,
          dsegment := (update_dynamic_segment env
            { s with left_click := true, mouse := ⟨x, y⟩,
                     vertices := s.vertices ++ [Vec2.mk x y] }).dsegment,
          lsegment := (update_dynamic_segment env
            { s with left_click := true, mouse := ⟨x, y⟩,
                     vertices := s.vertices ++ [Vec2.mk x y] }).dsegment } := by
    simp [stepEvent, model_update, h, hc, hsp, hr, add_persp]
  rw [key]
  refine ⟨by simp [h], by simp, by simp [hr], by simp [hsp], by simp [hc],
    by simp, by simp, ?_⟩
  exact add_persp_gcyl_append env _ g (by simp [hg])

/-- Right-click in piecewise-linear `mode_3`: one final section is appended
and the interface is reset to `mode_0` with cleared vertices and latches. -/
lemma stepEvent_rclick_mode3 (env : Env) (x y : ℚ) (s : MState)
    (h : s.mode = .mode_3) (hc : s.comp_type = .generalized_cylinder)
    (hsp : s.spd_mode = .piecewise_linear)
    (g : GeneralizedCylinder) (hg : s.gcyl = some g) :
    (stepEvent env (.rclick x y) s).mode = .mode_0 ∧
    (stepEvent env (.rclick x y) s).left_click = false ∧
    (stepEvent env (.rclick x y) s).right_click = false ∧
    (stepEvent env (.rclick x y) s).vertices = [] ∧
    (stepEvent env (.rclick x y) s).id_source = s.id_source ∧
    (stepEvent env (.rclick x y) s).spd_mode = s.spd_mode ∧
    (stepEvent env (.rclick x y) s).comp_type = s.comp_type ∧
    ∃ c, (stepEvent env (.rclick x y) s).gcyl =
      some ⟨g.componentId, g.sections ++ [c]⟩ := by
  have key : stepEvent env (.rclick x y) s =
      Reset2DDrawingInterface (add_persp env
        { update_dynamic_segment env
            { s with right_click := true, mouse := ⟨x, y⟩,
                     vertices := s.vertices ++ [Vec2.mk x y] } with
          right_click := false,
          dsegment := (update_dynamic_segment env
            { s with right_click := true, mouse := ⟨x, y⟩,
                     vertices := s.vertices ++ [Vec2.mk x y] }).dsegment,
          lsegment := (update_dynamic_segment env
            { s with right_click := true, mouse := ⟨x, y⟩,
                     vertices := s.vertices ++ [Vec2.mk x y] }).dsegment }) := by
    simp [stepEvent, model_update, h, hc, hsp, add_persp]
  rw [key]
  refine ⟨by simp, by simp, by simp, by simp, by simp, by simp, by simp, ?_⟩
  have := add_persp_gcyl_append env
      ({ update_dynamic_segment env
          { s with right_click := true, mouse := ⟨x, y⟩,
                   vertices := s.vertices ++ [Vec2.mk x y] } with
        right_click := false,
        dsegment := (update_dynamic_segment env
          { s with right_click := true, mouse := ⟨x, y⟩,
                   vertices := s.vertices ++ [Vec2.mk x y] }).dsegment,
        lsegment := (update_dynamic_segment env
          { s with right_click := true, mouse := ⟨x, y⟩,
                   vertices := s.vertices ++ [Vec2.mk x y] }).dsegment })
      g (by simp [hg])
  simpa using this

/-- A pointer-move never changes the mode, the recorded vertices, the
cylinder, the first circle or the click latches (it only refreshes previews:
mouse, base-ellipse candidate, dynamic segment, tangent vector). -/
lemma stepEvent_move_inv (env : Env) (x y : ℚ) (s : MState)
    (hl : s.left_click = false) (hr : s.right_click = false) :
    (stepEvent env (.move x y) s).mode = s.mode ∧
    (stepEvent env (.move x y) s).left_click = false ∧
    (stepEvent env (.move x y) s).right_click = false ∧
    (stepEvent env (.move x y) s).vertices = s.vertices ∧
    (stepEvent env (.move x y) s).gcyl = s.gcyl ∧
    (stepEvent env (.move x y) s).first_circle = s.first_circle ∧
    (stepEvent env (.move x y) s).spd_mode = s.spd_mode ∧
    (stepEvent env (.move x y) s).comp_type = s.comp_type ∧
    (stepEvent env (.move x y) s).id_source = s.id_source := by
  rcases hm : s.mode with _ | _ | _ | _ <;>
    simp [stepEvent, model_update, hm, hl, hr] <;>
    split_ifs <;>
    simp_all

/-- Running a concatenation of event lists. -/
lemma run_append (env : Env) (l1 l2 : List Event) (s : MState) :
    run env (l1 ++ l2) s = run env l2 (run env l1 s) := by
  induction l1 generalizing s with
  | nil => rfl
  | cons e es ih => simp [run, ih]

/-- Turn a list of coordinates into pointer-move events. -/
def movesOf (ps : List (ℚ × ℚ)) : List Event :=
  ps.map fun p => Event.move p.1 p.2

/-- Pointer-move sequences preserve mode, vertices, cylinder, first circle
and latches. -/
lemma run_moves_inv (env : Env) (ps : List (ℚ × ℚ)) (s : MState)
    (hl : s.left_click = false) (hr : s.right_click = false) :
    (run env (movesOf ps) s).mode = s.mode ∧
    (run env (movesOf ps) s).left_click = false ∧
    (run env (movesOf ps) s).right_click = false ∧
    (run env (movesOf ps) s).vertices = s.vertices ∧
    (run env (movesOf ps) s).gcyl = s.gcyl ∧
    (run env (movesOf ps) s).first_circle = s.first_circle ∧
    (run env (movesOf ps) s).spd_mode = s.spd_mode ∧
    (run env (movesOf ps) s).comp_type = s.comp_type ∧
    (run env (movesOf ps) s).id_source = s.id_source := by
  induction ps generalizing s with
  | nil => exact ⟨rfl, hl, hr, rfl, rfl, rfl, rfl, rfl, rfl⟩
  | cons p ps ih =>
    have h1 := stepEvent_move_inv env p.1 p.2 s hl hr
    have h2 := ih (stepEvent env (.move p.1 p.2) s) h1.2.1 h1.2.2.1
    simp only [movesOf, List.map_cons, run] at h2 ⊢
    exact ⟨h2.1.trans h1.1, h2.2.1, h2.2.2.1, h2.2.2.2.1.trans h1.2.2.2.1,
      h2.2.2.2.2.1.trans h1.2.2.2.2.1, h2.2.2.2.2.2.1.trans h1.2.2.2.2.2.1,
      h2.2.2.2.2.2.2.1.trans h1.2.2.2.2.2.2.1,
      h2.2.2.2.2.2.2.2.1.trans h1.2.2.2.2.2.2.2.1,
      h2.2.2.2.2.2.2.2.2.trans h1.2.2.2.2.2.2.2.2⟩

/-- Helper: starting from `mode_0`, three left-clicks with arbitrary
pointer-moves interleaved (and trailing) always reach `mode_3` with a newly
created one-section cylinder carrying the next component id. -/
lemma run_three_clicks_spec (env : Env) (c : ℕ)
    (m0 m1 m2 m3 : List (ℚ × ℚ)) (a b r : ℚ × ℚ) :
    (run env (movesOf m0 ++ [.lclick a.1 a.2] ++ movesOf m1 ++ [.lclick b.1 b.2]
        ++ movesOf m2 ++ [.lclick r.1 r.2] ++ movesOf m3) (initState env c)).mode
      = .mode_3 ∧
    (run env (movesOf m0 ++ [.lclick a.1 a.2] ++ movesOf m1 ++ [.lclick b.1 b.2]
        ++ movesOf m2 ++ [.lclick r.1 r.2] ++ movesOf m3) (initState env c)).gcyl
      = some ⟨(c + 1) % uintCardinal,
          [(run env (movesOf m0 ++ [.lclick a.1 a.2] ++ movesOf m1
              ++ [.lclick b.1 b.2] ++ movesOf m2 ++ [.lclick r.1 r.2]
              ++ movesOf m3) (initState env c)).first_circle]⟩ := by
  have hrw : run env (movesOf m0 ++ [.lclick a.1 a.2] ++ movesOf m1
      ++ [.lclick b.1 b.2] ++ movesOf m2 ++ [.lclick r.1 r.2] ++ movesOf m3)
      (initState env c)
      = run env (movesOf m3) (stepEvent env (.lclick r.1 r.2)
          (run env (movesOf m2) (stepEvent env (.lclick b.1 b.2)
            (run env (movesOf m1) (stepEvent env (.lclick a.1 a.2)
              (run env (movesOf m0) (initState env c))))))) := by
    simp [run_append, run]
  rw [hrw]
  -- stage A: leading moves on the initial state
  have i0 := run_moves_inv env m0 (initState env c) rfl rfl
  set s0 := run env (movesOf m0) (initState env c) with hs0
  have a_mode : s0.mode = .mode_0 := i0.1
  have a_comp : s0.comp_type = .generalized_cylinder := i0.2.2.2.2.2.2.2.1
  -- stage B: first click
  have c1 := stepEvent_lclick_mode0 env a.1 a.2 s0 a_mode a_comp
  set s1 := stepEvent env (.lclick a.1 a.2) s0 with hs1
  have b_mode : s1.mode = .mode_1 := by rw [c1]
  have b_left : s1.left_click = false := by rw [c1]
  have b_right : s1.right_click = false := by rw [c1]; exact i0.2.2.1
  have b_comp : s1.comp_type = .generalized_cylinder := by rw [c1]; exact a_comp
  have b_spd : s1.spd_mode = s0.spd_mode := by rw [c1]
  have b_id : s1.id_source = s0.id_source := by rw [c1]
  -- stage C: moves
  have i1 := run_moves_inv env m1 s1 b_left b_right
  set s1m := run env (movesOf m1) s1 with hs1m
  -- stage D: second click
  have c2 := stepEvent_lclick_mode1 env b.1 b.2 s1m (i1.1.trans b_mode)
    (i1.2.2.2.2.2.2.2.1.trans b_comp)
  set s2 := stepEvent env (.lclick b.1 b.2) s1m with hs2
  have d_mode : s2.mode = .mode_2 := by rw [c2]
  have d_left : s2.left_click = false := by rw [c2]
  have d_right : s2.right_click = false := by rw [c2]; exact i1.2.2.1
  have d_comp : s2.comp_type = .generalized_cylinder := by
    rw [c2]; exact i1.2.2.2.2.2.2.2.1.trans b_comp
  have d_id : s2.id_source = s0.id_source := by
    rw [c2]; exact i1.2.2.2.2.2.2.2.2.trans b_id
  -- stage E: moves
  have i2 := run_moves_inv env m2 s2 d_left d_right
  set s2m := run env (movesOf m2) s2 with hs2m
  -- stage F: third click
  have c3 := stepEvent_lclick_mode2 env r.1 r.2 s2m (i2.1.trans d_mode)
    (i2.2.2.2.2.2.2.2.1.trans d_comp)
  set s3 := stepEvent env (.lclick r.1 r.2) s2m with hs3
  have f_mode : s3.mode = .mode_3 := c3.1
  have f_left : s3.left_click = false := c3.2.1
  have f_right : s3.right_click = false := c3.2.2.1.trans i2.2.2.1
  have f_id : s3.id_source = (c + 1) % uintCardinal := by
    have := c3.2.2.2.2.2.1
    rw [this, i2.2.2.2.2.2.2.2.2, d_id, i0.2.2.2.2.2.2.2.2]
    rfl
  have f_gcyl : s3.gcyl = some ⟨(c + 1) % uintCardinal, [s3.first_circle]⟩ := by
    have := c3.2.2.2.2.2.2
    rw [this, i2.2.2.2.2.2.2.2.2, d_id, i0.2.2.2.2.2.2.2.2]
    rfl
  -- stage G: trailing moves
  have i3 := run_moves_inv env m3 s3 f_left f_right
  refine ⟨i3.1.trans f_mode, ?_⟩
  rw [i3.2.2.2.2.1, f_gcyl, i3.2.2.2.2.2.1]

/-- Turn a list of coordinates into left-click events. -/
def lclicksOf (ps : List (ℚ × ℚ)) : List Event :=
  ps.map fun p => Event.lclick p.1 p.2

/-- A run of `N` left-clicks in piecewise-linear `mode_3` stays in `mode_3`
and appends exactly `N` sections at the cylinder's tail. -/
lemma run_lclicks_mode3 (env : Env) (ps : List (ℚ × ℚ)) (s : MState)
    (h : s.mode = .mode_3) (hc : s.comp_type = .generalized_cylinder)
    (hsp : s.spd_mode = .piecewise_linear)
    (hl : s.left_click = false) (hr : s.right_click = false)
    (g : GeneralizedCylinder) (hg : s.gcyl = some g) :
    (run env (lclicksOf ps) s).mode = .mode_3 ∧
    (run env (lclicksOf ps) s).left_click = false ∧
    (run env (lclicksOf ps) s).right_click = false ∧
    (run env (lclicksOf ps) s).comp_type = .generalized_cylinder ∧
    (run env (lclicksOf ps) s).spd_mode = .piecewise_linear ∧
    ∃ g', (run env (lclicksOf ps) s).gcyl = some g' ∧
      g'.componentId = g.componentId ∧
      g'.sections.length = g.sections.length + ps.length := by
  induction ps generalizing s g with
  | nil => exact ⟨h, hl, hr, hc, hsp, g, hg, rfl, by simp [lclicksOf, run]⟩
  | cons p ps ih =>
    obtain ⟨e_mode, e_left, e_right, e_spd, e_comp, _, _, c', hc'⟩ :=
      stepEvent_lclick_mode3 env p.1 p.2 s h hc hsp hr g hg
    have step := ih (stepEvent env (.lclick p.1 p.2) s) e_mode e_comp e_spd
      e_left e_right ⟨g.componentId, g.sections ++ [c']⟩ hc'
    simp only [lclicksOf, List.map_cons, run] at step ⊢
    obtain ⟨g', hgc, hid, hlen⟩ := step.2.2.2.2.2
    refine ⟨step.1, step.2.1, step.2.2.1, step.2.2.2.1, step.2.2.2.2.1,
      g', hgc, hid, ?_⟩
    simp only [hlen, List.length_append, List.length_cons, List.length_nil]
    omega

/-- C1 (amended): from the moment the machine enters `mode_3` via the
canonical three-click entry (cylinder created with its first cross-section),
a sequence of `N` left-clicks followed by one right-click produces a
generalized cylinder with exactly `N + 2` cross-sections — the creation-time
section, one per left-click, and one more committed by the terminating
right-click — after which the machine is back in `mode_0` with the vertex
list cleared and both click latches reset. -/
lemma run_piecewise_clicks_spec (env : Env) (c : ℕ)
    (a b r d : ℚ × ℚ) (ps : List (ℚ × ℚ)) :
    (run env ([.lclick a.1 a.2, .lclick b.1 b.2, .lclick r.1 r.2]
        ++ lclicksOf ps ++ [.rclick d.1 d.2]) (initState env c)).mode = .mode_0 ∧
    (run env ([.lclick a.1 a.2, .lclick b.1 b.2, .lclick r.1 r.2]
        ++ lclicksOf ps ++ [.rclick d.1 d.2]) (initState env c)).left_click = false ∧
    (run env ([.lclick a.1 a.2, .lclick b.1 b.2, .lclick r.1 r.2]
        ++ lclicksOf ps ++ [.rclick d.1 d.2]) (initState env c)).right_click = false ∧
    (run env ([.lclick a.1 a.2, .lclick b.1 b.2, .lclick r.1 r.2]
        ++ lclicksOf ps ++ [.rclick d.1 d.2]) (initState env c)).vertices = [] ∧
    ((run env ([.lclick a.1 a.2, .lclick b.1 b.2, .lclick r.1 r.2]
        ++ lclicksOf ps ++ [.rclick d.1 d.2]) (initState env c)).gcyl.map
      fun g => g.sections.length) = some (ps.length + 2) := by
  have hrw : run env ([.lclick a.1 a.2, .lclick b.1 b.2, .lclick r.1 r.2]
      ++ lclicksOf ps ++ [.rclick d.1 d.2]) (initState env c)
      = stepEvent env (.rclick d.1 d.2) (run env (lclicksOf ps)
          (stepEvent env (.lclick r.1 r.2) (stepEvent env (.lclick b.1 b.2)
            (stepEvent env (.lclick a.1 a.2) (initState env c))))) := by
    simp [run_append, run]
  rw [hrw]
  -- three-click entry into mode_3
  have c1 := stepEvent_lclick_mode0 env a.1 a.2 (initState env c) rfl rfl
  set s1 := stepEvent env (.lclick a.1 a.2) (initState env c) with hs1
  have c2 := stepEvent_lclick_mode1 env b.1 b.2 s1 (by rw [c1]) (by rw [c1]; rfl)
  set s2 := stepEvent env (.lclick b.1 b.2) s1 with hs2
  have c3 := stepEvent_lclick_mode2 env r.1 r.2 s2 (by rw [c2]) (by rw [c2]; rw [c1]; rfl)
  set s3 := stepEvent env (.lclick r.1 r.2) s2 with hs3
  have f_right : s3.right_click = false := by
    rw [c3.2.2.1, c2]; show s1.right_click = false; rw [c1]; rfl
  have f_spd : s3.spd_mode = .piecewise_linear := by
    rw [c3.2.2.2.1, c2]; show s1.spd_mode = _; rw [c1]; rfl
  have f_comp : s3.comp_type = .generalized_cylinder := by
    rw [c3.2.2.2.2.1, c2]; show s1.comp_type = _; rw [c1]; rfl
  -- N left-clicks
  obtain ⟨n_mode, n_left, n_right, n_comp, n_spd, g', n_gcyl, _, n_len⟩ :=
    run_lclicks_mode3 env ps s3 c3.1 f_comp f_spd c3.2.1 f_right
      ⟨(s2.id_source + 1) % uintCardinal, [s3.first_circle]⟩ c3.2.2.2.2.2.2
  set sN := run env (lclicksOf ps) s3 with hsN
  -- terminating right-click
  obtain ⟨r_mode, r_left, r_right, r_vertices, _, _, _, cr, r_gcyl⟩ :=
    stepEvent_rclick_mode3 env d.1 d.2 sN n_mode n_comp n_spd g' n_gcyl
  refine ⟨r_mode, r_left, r_right, r_vertices, ?_⟩
  have n_len' : g'.sections.length = 1 + ps.length := by simpa using n_len
  rw [r_gcyl]
  show some ((g'.sections ++ [cr]).length) = some (ps.length + 2)
  simp only [List.length_append, List.length_cons, List.length_nil,
    Option.some.injEq]
  omega

/-- A fixed sample circle for concrete oracle environments. -/
def cWit : Circle3D := ⟨⟨0, 0, -2⟩, ⟨0, 0, 1⟩, 1⟩

/-- A concrete oracle environment for evaluating the embedding on explicit
inputs: the estimator always reports one solution (`cWit`), rays never hit,
coordinate conversions are the identity. -/
def envBase : Env where
  near := 1
  far := 3
  use_bimage := true
  sqrtQ := fun _ => 0
  acosQ := fun _ => 0
  cosQ := fun _ => 1
  sinQ := fun _ => 0
  hpi := 0
  convert_ellipse := id
  convert_segment := id
  est_fixed_depth := fun _ _ => (1, cWit, cWit)
  est_major_axis_depth_fixed := fun _ _ c => (c.center, c.radius)
  est_orthogonality := fun _ _ => (cWit, cWit)
  est_ortho_single := fun _ _ => cWit
  project := fun v => ⟨v.x, v.y⟩
  rect_clip := fun _ _ => none
  braycast := fun _ _ => none
  graycast := fun _ _ => (0, ⟨0, 0⟩)
  gpixel := fun _ => 0
  d2l := id
  junk := ⟨0, 0⟩
  junkV := fun _ => 0
  junkI := fun _ => ⟨0, 0⟩

/-- C1 (counterexample): with `N = 0` left-clicks after entering `mode_3`
(three clicks create the cylinder with its first cross-section, then one
right-click immediately ends it), the finished cylinder holds 2
cross-sections, not the `N + 1 = 1` cross-section the claim predicts: the
terminating right-click itself commits a section in addition to the
creation-time one. -/
theorem c1_counterexample :
    ((run envBase [.lclick 0 0, .lclick 4 0, .lclick 2 2, .rclick 2 8]
        (initState envBase 0)).gcyl.map fun g => g.sections.length) = some 2
      ∧ (2 : ℕ) ≠ 0 + 1 := by
  have h := (run_piecewise_clicks_spec envBase 0 (0, 0) (4, 0) (2, 2) (2, 8) []).2.2.2.2
  simp only [lclicksOf, List.map_nil, List.length_nil] at h
  refine ⟨?_, by norm_num⟩
  simpa using h

/-- C1 (amended): from the moment the machine enters `mode_3` via the
canonical three-click entry (cylinder created with its first cross-section),
a run of `N` left-clicks followed by one right-click produces a generalized
cylinder with exactly `N + 2` cross-sections — the creation-time section,
one per left-click, and one more committed by the terminating right-click —
after which the machine is back in `mode_0` with the accumulated vertex list
cleared and the click latches reset. -/
theorem c1_amended_piecewise_click_counts (env : Env) (c : ℕ)
    (a b r d : ℚ × ℚ) (ps : List (ℚ × ℚ)) :
    (run env ([.lclick a.1 a.2, .lclick b.1 b.2, .lclick r.1 r.2]
        ++ lclicksOf ps ++ [.rclick d.1 d.2]) (initState env c)).mode = .mode_0 ∧
    (run env ([.lclick a.1 a.2, .lclick b.1 b.2, .lclick r.1 r.2]
        ++ lclicksOf ps ++ [.rclick d.1 d.2]) (initState env c)).left_click = false ∧
    (run env ([.lclick a.1 a.2, .lclick b.1 b.2, .lclick r.1 r.2]
        ++ lclicksOf ps ++ [.rclick d.1 d.2]) (initState env c)).right_click = false ∧
    (run env ([.lclick a.1 a.2, .lclick b.1 b.2, .lclick r.1 r.2]
        ++ lclicksOf ps ++ [.rclick d.1 d.2]) (initState env c)).vertices = [] ∧
    ((run env ([.lclick a.1 a.2, .lclick b.1 b.2, .lclick r.1 r.2]
        ++ lclicksOf ps ++ [.rclick d.1 d.2]) (initState env c)).gcyl.map
      fun g => g.sections.length) = some (ps.length + 2) :=
  run_piecewise_clicks_spec env c a b r d ps

/-- C3: starting from `mode_0`, the event sequence [left-click, left-click,
left-click], with arbitrary pointer-moves interleaved (and trailing), always
leaves the machine in `mode_3` with a newly created generalized cylinder
(carrying the next component id) that contains exactly one cross-section,
namely the machine's first estimated circle committed from the base
ellipse. -/
theorem c3_three_clicks_reach_mode3 (env : Env) (c : ℕ)
    (m0 m1 m2 m3 : List (ℚ × ℚ)) (a b r : ℚ × ℚ) :
    (run env (movesOf m0 ++ [.lclick a.1 a.2] ++ movesOf m1 ++ [.lclick b.1 b.2]
        ++ movesOf m2 ++ [.lclick r.1 r.2] ++ movesOf m3) (initState env c)).mode
      = .mode_3 ∧
    (run env (movesOf m0 ++ [.lclick a.1 a.2] ++ movesOf m1 ++ [.lclick b.1 b.2]
        ++ movesOf m2 ++ [.lclick r.1 r.2] ++ movesOf m3) (initState env c)).gcyl
      = some ⟨(c + 1) % uintCardinal,
          [(run env (movesOf m0 ++ [.lclick a.1 a.2] ++ movesOf m1
              ++ [.lclick b.1 b.2] ++ movesOf m2 ++ [.lclick r.1 r.2]
              ++ movesOf m3) (initState env c)).first_circle]⟩ :=
  run_three_clicks_spec env c m0 m1 m2 m3 a b r

/-- Helper: when the fixed-depth estimator reports zero solutions, the
third click leaves `m_first_circle` at its stale previous value — yet (by
`stepEvent_lclick_mode2`) the cylinder is still created and the machine
still advances to `mode_3`. -/
lemma stepEvent_lclick_mode2_zero_solutions (env : Env) (x y : ℚ) (s : MState)
    (h : s.mode = .mode_2) (hc : s.comp_type = .generalized_cylinder)
    (hz : ∀ e d, (env.est_fixed_depth e d).1 = 0) :
    (stepEvent env (.lclick x y) s).first_circle = s.first_circle := by
  simp [stepEvent, model_update, h, hc, init_spine_drawing_mode,
    estimate_first_circle_under_persective_projection, hz]

/-- An oracle environment whose fixed-depth estimator always reports zero
solutions (the degenerate-geometry case). -/
def envDeg : Env := { envBase with est_fixed_depth := fun _ _ => (0, cWit, cWit) }

/-- C2 (code evaluated at the failing input): with the estimator reporting
a solution count of 0, the third left-click nevertheless creates a fresh
`GeneralizedCylinder` (consuming component id 6) whose single section is the
stale default-constructed first circle, and the machine advances to
`mode_3` — the caller neither skips the model mutation nor leaves the
interaction state unchanged. -/
theorem c2_degenerate_estimation_still_mutates :
    (run envDeg [.lclick 0 0, .lclick 4 0, .lclick 2 2]
      (initState envDeg 5)).mode = .mode_3 ∧
    (run envDeg [.lclick 0 0, .lclick 4 0, .lclick 2 2]
      (initState envDeg 5)).gcyl = some ⟨6, [circleZero]⟩ := by
  have h3 := run_three_clicks_spec envDeg 5 [] [] [] [] (0, 0) (4, 0) (2, 2)
  simp only [movesOf, List.map_nil, List.nil_append, List.append_nil,
    List.singleton_append, List.cons_append] at h3
  have hz : ∀ e d, (envDeg.est_fixed_depth e d).1 = 0 := fun _ _ => rfl
  -- the final first circle is the stale initial one
  have c1 := stepEvent_lclick_mode0 envDeg 0 0 (initState envDeg 5) rfl rfl
  set s1 := stepEvent envDeg (.lclick 0 0) (initState envDeg 5) with hs1
  have c2 := stepEvent_lclick_mode1 envDeg 4 0 s1 (by rw [c1]) (by rw [c1]; rfl)
  set s2 := stepEvent envDeg (.lclick 4 0) s1 with hs2
  have cz := stepEvent_lclick_mode2_zero_solutions envDeg 2 2 s2
    (by rw [c2]) (by rw [c2]; rw [c1]; rfl) hz
  have hfc : (run envDeg [.lclick 0 0, .lclick 4 0, .lclick 2 2]
      (initState envDeg 5)).first_circle = circleZero := by
    have e1 : s1.first_circle = circleZero := by rw [c1]; rfl
    have e2 : s2.first_circle = circleZero := by rw [c2]; exact e1
    calc (run envDeg [.lclick 0 0, .lclick 4 0, .lclick 2 2]
        (initState envDeg 5)).first_circle
        = (stepEvent envDeg (.lclick 2 2) s2).first_circle := by
          simp only [run, hs1, hs2]
      _ = s2.first_circle := cz
      _ = circleZero := e2
  refine ⟨?_, ?_⟩
  · have := h3.1
    simpa [run, hs1, hs2] using this
  · have := h3.2
    rw [hfc] at this
    simpa [run, hs1, hs2, uintCardinal] using this

/-- Helper: in continuous spine mode the whole `mode_3` body is commented
out in the source, so a pointer-move only stores the new mouse position. -/
lemma move_in_continuous_mode3 (env : Env) (x y : ℚ) (s : MState)
    (h : s.mode = .mode_3) (hcont : s.spd_mode = .continuous) :
    stepEvent env (.move x y) s = { s with mouse := ⟨x, y⟩ } := by
  by_cases hc : s.comp_type = .generalized_cylinder <;>
    simp [stepEvent, model_update, h, hcont, hc]

/-- A concrete continuous-mode `mode_3` state whose cylinder has one
section and whose last committed segment sits at the origin. -/
def sC4 : MState :=
  { (initState envBase 0) with
    mode := DrawingMode.mode_3, spd_mode := SpineDrawingMode.continuous,
    gcyl := some ⟨1, [cWit]⟩ }

/-- C4 (counterexample): in continuous spine mode within `mode_3`, a
pointer-move whose squared distance from the last committed profile's
reference point is 800 (> 100) does not commit any cross-section — the
cylinder is left untouched because the continuous-mode branch of
`model_update` is entirely commented out, refuting the claim that such a
move always commits. -/
theorem c4_counterexample :
    100 < len2 (Vec2.mk 20 20 - seg_mid_point sC4.lsegment) ∧
    (stepEvent envBase (.move 20 20) sC4).gcyl = sC4.gcyl := by
  constructor
  · norm_num [len2, dot2, seg_mid_point, sC4, initState, v2smul, segZero, v2zero]
  · rw [move_in_continuous_mode3 envBase 20 20 sC4 rfl rfl]

/-- C4 (amended): in continuous spine-drawing mode within `mode_3`, a
pointer-move whose squared distance from the last committed reference point
is at most 100 never commits a cross-section — and one whose squared
distance exceeds 100 never commits either: the continuous-mode branch is
disabled in the source, so any pointer-move leaves the machine state
unchanged except for the stored mouse position, and in particular the
cylinder is never mutated. -/
theorem c4_amended_continuous_never_commits (env : Env) (x y : ℚ) (s : MState)
    (h : s.mode = .mode_3) (hcont : s.spd_mode = .continuous) :
    stepEvent env (.move x y) s = { s with mouse := ⟨x, y⟩ } ∧
    (stepEvent env (.move x y) s).gcyl = s.gcyl := by
  refine ⟨move_in_continuous_mode3 env x y s h hcont, ?_⟩
  rw [move_in_continuous_mode3 env x y s h hcont]

/-- C4 witness: the amended statement evaluated on a concrete continuous
`mode_3` state. -/
theorem c4_amended_witness :
    stepEvent envBase (.move 30 40) sC4 = { sC4 with mouse := ⟨30, 40⟩ } ∧
    (stepEvent envBase (.move 30 40) sC4).gcyl = sC4.gcyl :=
  c4_amended_continuous_never_commits envBase 30 40 sC4 rfl rfl

/-- Property: the state holds a cylinder with the given component id whose
section list is a nonempty prefix followed by one newly appended section,
and the appended section's normal has nonnegative dot product with the
normal of the prefix's tail (the previous section at append time). -/
def appendsNonreversing (s' : MState) (cid : ℕ) : Prop :=
  ∃ pre c, s'.gcyl = some ⟨cid, pre ++ [c]⟩ ∧ pre ≠ [] ∧
    0 ≤ dot3 c.normal ((pre.getLast?.getD circleZero).normal)

/-- C5: every operation that appends a cross-section to the generalized
cylinder flips the re-estimated normal's sign whenever its dot product with
the previous (tail) section's normal is negative, so the appended section's
normal never opposes its predecessor — in the perspective, orthographic and
orthogonality-constrained append routines alike. -/
theorem c5_normal_sign_continuity (env : Env) (s : MState)
    (g : GeneralizedCylinder) (hg : s.gcyl = some g) (hne : g.sections ≠ []) :
    appendsNonreversing
      (add_planar_section_to_the_generalized_cylinder_under_perspective_projection env s)
      g.componentId ∧
    appendsNonreversing
      (add_planar_section_to_the_generalized_cylinder_under_orthographic_projection env s)
      g.componentId ∧
    appendsNonreversing
      (add_planar_section_to_the_generalized_cylinder_under_orthogonality_constraint env s)
      g.componentId := by
  refine ⟨?_, ?_, ?_⟩
  · simp only [add_planar_section_to_the_generalized_cylinder_under_perspective_projection,
      hg, appendsNonreversing]
    refine ⟨g.sections, _, rfl, hne, ?_⟩
    dsimp only
    split_ifs with hd
    · rw [dot3_neg_left]; linarith
    · exact not_lt.mp hd
  · simp only [add_planar_section_to_the_generalized_cylinder_under_orthographic_projection,
      hg, appendsNonreversing]
    refine ⟨g.sections, _, rfl, hne, ?_⟩
    dsimp only
    split_ifs with hd
    · rw [dot3_neg_left]; linarith
    · exact not_lt.mp hd
  · simp only [add_planar_section_to_the_generalized_cylinder_under_orthogonality_constraint,
      hg, appendsNonreversing]
    by_cases h1 : g.sections.length = 1
    · simp only [h1, if_pos rfl, reduceIte]
      refine ⟨_, _, rfl, ?_, ?_⟩
      · have : (g.sections.set 0
            ((fun c0 => { c0 with
              radius := c0.radius * (s.fixed_depth / c0.center.z),
              center := v3smul (s.fixed_depth / c0.center.z) c0.center })
              (env.est_orthogonality
                { env.convert_ellipse s.first_ellipse with
                  p3 := seg_mid_point (env.convert_segment s.lsegment) } true).1)).length
            = g.sections.length := List.length_set _ _ _
        intro hcontra
        rw [hcontra] at this
        simp at this
        omega
      · dsimp only
        split_ifs with hd
        · rw [dot3_neg_left]; linarith
        · exact not_lt.mp hd
    · simp only [h1, if_neg h1, reduceIte]
      refine ⟨g.sections, _, rfl, hne, ?_⟩
      dsimp only
      split_ifs with hd
      · rw [dot3_neg_left]; linarith
      · exact not_lt.mp hd

/-- A concrete one-section cylinder for witnesses. -/
def gWit : GeneralizedCylinder := ⟨3, [cWit]⟩

/-- A concrete state holding `gWit` with a nonzero spine tangent. -/
def sC5 : MState :=
  { (initState envBase 0) with gcyl := some gWit, tvec := ⟨1, 0⟩ }

/-- C5 witness: the normal-sign-continuity statement evaluated on a
concrete one-section cylinder. -/
theorem c5_normal_sign_continuity_witness :
    appendsNonreversing
      (add_planar_section_to_the_generalized_cylinder_under_perspective_projection envBase sC5)
      gWit.componentId ∧
    appendsNonreversing
      (add_planar_section_to_the_generalized_cylinder_under_orthographic_projection envBase sC5)
      gWit.componentId ∧
    appendsNonreversing
      (add_planar_section_to_the_generalized_cylinder_under_orthogonality_constraint envBase sC5)
      gWit.componentId :=
  c5_normal_sign_continuity envBase sC5 gWit rfl (by simp [gWit])

/-- Reference circle with normal `(0,0,1)` used in the selection examples. -/
def lastC6 : Circle3D := ⟨v3zero, ⟨0, 0, 1⟩, 1⟩

/-- Candidate with normal `(0,0,1)`. -/
def caC6 : Circle3D := ⟨v3zero, ⟨0, 0, 1⟩, 1⟩

/-- Candidate with normal `(0,0,-1)`. -/
def cbC6 : Circle3D := ⟨v3zero, ⟨0, 0, -1⟩, 1⟩

/-- Candidate with normal `(1,0,0)`. -/
def ccC6 : Circle3D := ⟨v3zero, ⟨1, 0, 0⟩, 1⟩

/-- C6 (counterexample): when the two candidates' absolute dot products with
the reference normal tie (here `|1| = |-1|`), `select_parallel_circle`
returns index 1 for either input order, so the *selected circle* changes
when the two candidates are swapped — the selection is not invariant under
permuting the candidate array. -/
theorem c6_counterexample :
    selected_parallel_circle lastC6 caC6 cbC6
      ≠ selected_parallel_circle lastC6 cbC6 caC6 := by
  norm_num [selected_parallel_circle, select_parallel_circle, lastC6, caC6,
    cbC6, dot3, v3zero, Circle3D.mk.injEq, Vec3.mk.injEq]

/-- C6 (amended): `select_parallel_circle` always returns a candidate whose
normal's absolute dot product with the reference normal is maximal, and the
selected circle is invariant under swapping the two candidates whenever the
two absolute dot products differ (on ties the code returns index 1 for both
orders, which names different circles). -/
theorem c6_amended_parallel_selection (last c0 c1 : Circle3D) :
    (|dot3 last.normal c0.normal|
        ≤ |dot3 last.normal (selected_parallel_circle last c0 c1).normal| ∧
     |dot3 last.normal c1.normal|
        ≤ |dot3 last.normal (selected_parallel_circle last c0 c1).normal|) ∧
    (|dot3 last.normal c0.normal| ≠ |dot3 last.normal c1.normal| →
      selected_parallel_circle last c0 c1 = selected_parallel_circle last c1 c0) := by
  constructor
  · by_cases h : |dot3 last.normal c0.normal| > |dot3 last.normal c1.normal|
    · have e : selected_parallel_circle last c0 c1 = c0 := by
        simp [selected_parallel_circle, select_parallel_circle, h]
      rw [e]
      exact ⟨le_refl _, le_of_lt h⟩
    · have e : selected_parallel_circle last c0 c1 = c1 := by
        simp [selected_parallel_circle, select_parallel_circle, h]
      rw [e]
      exact ⟨not_lt.mp h, le_refl _⟩
  · intro hne
    rcases lt_or_gt_of_ne hne with h | h
    · have e1 : selected_parallel_circle last c0 c1 = c1 := by
        simp [selected_parallel_circle, select_parallel_circle, not_lt.mpr (le_of_lt h)]
      have e2 : selected_parallel_circle last c1 c0 = c1 := by
        simp [selected_parallel_circle, select_parallel_circle, h]
      rw [e1, e2]
    · have e1 : selected_parallel_circle last c0 c1 = c0 := by
        simp [selected_parallel_circle, select_parallel_circle, h]
      have e2 : selected_parallel_circle last c1 c0 = c0 := by
        simp [selected_parallel_circle, select_parallel_circle, not_lt.mpr (le_of_lt h)]
      rw [e1, e2]

/-- C6 witness: the amended statement evaluated on concrete candidates with
distinct absolute dot products (`|1| ≠ |0|`). -/
theorem c6_amended_parallel_selection_witness :
    (|dot3 lastC6.normal caC6.normal|
        ≤ |dot3 lastC6.normal (selected_parallel_circle lastC6 caC6 ccC6).normal| ∧
     |dot3 lastC6.normal ccC6.normal|
        ≤ |dot3 lastC6.normal (selected_parallel_circle lastC6 caC6 ccC6).normal|) ∧
    selected_parallel_circle lastC6 caC6 ccC6
      = selected_parallel_circle lastC6 ccC6 caC6 :=
  ⟨(c6_amended_parallel_selection lastC6 caC6 ccC6).1,
   (c6_amended_parallel_selection lastC6 caC6 ccC6).2
     (by norm_num [dot3, lastC6, caC6, ccC6, v3zero])⟩

/-- Endpoint-sum arithmetic for the mirror update moving `pt1`. -/
lemma sum_mirror_left (p q r : Vec2) : p + (q + (r - p)) = r + q := by
  ext <;> simp <;> ring

/-- Endpoint-sum arithmetic for the mirror update moving `pt2`. -/
lemma sum_mirror_right (p q r : Vec2) : (q + (r - p)) + p = q + r := by
  ext <;> simp <;> ring

set_option maxHeartbeats 1000000 in
/-- C10: every endpoint update performed by image-guided refinement moves
the opposite endpoint by the exact negation of the move, so the endpoint
sum (hence the midpoint) of the dynamic segment is unchanged — by the
mirror-point helper and by both the binary and the gradient ray-cast
analysis, in every hit configuration (including no hits). -/
theorem c10_midpoint_preservation :
    (∀ ds pt first,
      (update_dynamic_segment_with_mirror_point ds pt first).pt1
        + (update_dynamic_segment_with_mirror_point ds pt first).pt2
        = ds.pt1 + ds.pt2) ∧
    (∀ env ds,
      (ray_cast_within_binary_image_for_profile_match env ds).pt1
        + (ray_cast_within_binary_image_for_profile_match env ds).pt2
        = ds.pt1 + ds.pt2) ∧
    (∀ env sf ds,
      (ray_cast_within_gradient_image_for_profile_match env sf ds).pt1
        + (ray_cast_within_gradient_image_for_profile_match env sf ds).pt2
        = ds.pt1 + ds.pt2) := by
  refine ⟨?_, ?_, ?_⟩
  · intro ds pt first
    unfold update_dynamic_segment_with_mirror_point
    split_ifs
    · exact sum_mirror_left _ _ _
    · exact sum_mirror_right _ _ _
  · intro env ds
    simp only [ray_cast_within_binary_image_for_profile_match]
    split_ifs <;> first
      | rfl
      | exact sum_mirror_left _ _ _
      | exact sum_mirror_right _ _ _
  · intro env sf ds
    simp only [ray_cast_within_gradient_image_for_profile_match]
    split_ifs <;> first
      | rfl
      | exact sum_mirror_left _ _ _
      | exact sum_mirror_right _ _ _

set_option maxHeartbeats 1000000 in
/-- C8 (amended): when both rays from an endpoint report a hit, the binary
path repositions the endpoint to the endpoint's own re-converted pixel
position (neither hit point is used — only single-hit endpoints move to a
hit), while the gradient path repositions the endpoint to the hit whose
sampled magnitude is strictly larger, preferring the outward hit on ties;
the inward hit is not systematically preferred in either path. -/
theorem c8_amended_both_hit_policy :
    (∀ env ds, (bin_hit env ds 0).isSome → (bin_hit env ds 1).isSome →
      (ray_cast_within_binary_image_for_profile_match env ds).pt1 =
        ⟨((env.d2l (rc_p0 env ds)).x : ℚ), ((env.d2l (rc_p0 env ds)).y : ℚ)⟩) ∧
    (∀ env sf ds,
      grad_hv env sf ds 0 > env.gpixel (rc_p0 env ds) →
      grad_hv env sf ds 1 > env.gpixel (rc_p0 env ds) →
      (ray_cast_within_gradient_image_for_profile_match env sf ds).pt1 =
        ⟨((env.d2l (if grad_hv env sf ds 0 > grad_hv env sf ds 1
            then grad_hi env sf ds 0 else grad_hi env sf ds 1)).x : ℚ),
         ((env.d2l (if grad_hv env sf ds 0 > grad_hv env sf ds 1
            then grad_hi env sf ds 0 else grad_hi env sf ds 1)).y : ℚ)⟩) := by
  constructor
  · intro env ds h0 h1
    simp only [ray_cast_within_binary_image_for_profile_match]
    split_ifs <;> simp_all
  · intro env sf ds h0 h1
    simp only [ray_cast_within_gradient_image_for_profile_match]
    split_ifs <;> simp_all

/-- An oracle environment whose rays always hit: clipping is the identity
and the binary ray cast reports a hit one pixel diagonally from the ray's
start point. -/
def envC8 : Env :=
  { envBase with rect_clip := fun _ e => some e,
                 braycast := fun p _ => some ⟨p.x + 1, p.y + 1⟩ }

/-- A concrete dynamic segment from `(0,0)` to `(10,0)`. -/
def dsC8 : Segment2D := ⟨⟨0, 0⟩, ⟨10, 0⟩⟩

/-- C8 (counterexample): for endpoint `p0 = (0,0)` of `dsC8`, both the
inward and the outward binary ray report a hit, the inward hit being
`(1,1)`; yet the binary analysis leaves the endpoint at `(0,0)` instead of
repositioning it to the inward hit point. -/
theorem c8_counterexample :
    bin_hit envC8 dsC8 0 = some ⟨1, 1⟩ ∧
    (ray_cast_within_binary_image_for_profile_match envC8 dsC8).pt1 = ⟨0, 0⟩ ∧
    (ray_cast_within_binary_image_for_profile_match envC8 dsC8).pt1
      ≠ ⟨(1 : ℚ), 1⟩ := by
  have hray : ∀ i, bin_hit envC8 dsC8 i =
      some ⟨(rc_ray_ep envC8 (7/20) dsC8 i).1.x + 1,
            (rc_ray_ep envC8 (7/20) dsC8 i).1.y + 1⟩ := by
    intro i
    simp [bin_hit, envC8, envBase]
  have hp0 : rc_p0 envC8 dsC8 = ⟨0, 0⟩ := by
    norm_num [rc_p0, envC8, envBase, dsC8, truncQ]
  have hp1 : rc_p1 envC8 dsC8 = ⟨10, 0⟩ := by
    norm_num [rc_p1, envC8, envBase, dsC8, truncQ]
  refine ⟨?_, ?_, ?_⟩
  · rw [hray 0]
    simp [rc_ray_ep, hp0]
  · simp only [ray_cast_within_binary_image_for_profile_match]
    rw [if_pos, if_pos]
    · simp only [hray 0, hray 1]
      simp [rc_ray_ep, hp0, envC8, envBase, dsC8]
      norm_num [rc_p0, truncQ]
    · constructor <;> simp [hray]
    · exact ⟨Or.inl (by simp [hray]), Or.inl (by simp [hray])⟩
  · simp only [ray_cast_within_binary_image_for_profile_match]
    rw [if_pos, if_pos]
    · simp only [hray 0, hray 1]
      simp [rc_ray_ep, hp0, envC8, envBase, dsC8, Vec2.mk.injEq]
      norm_num [rc_p0, truncQ]
    · constructor <;> simp [hray]
    · exact ⟨Or.inl (by simp [hray]), Or.inl (by simp [hray])⟩

/-- Gradient variant of `envC8`: every sampled ray reports magnitude 5 (the
pixel under each endpoint has magnitude 0). -/
def envG : Env :=
  { envC8 with graycast := fun p _ => (5, ⟨p.x + 2, p.y + 2⟩) }

/-- C8 witness: the amended both-hit policy evaluated on concrete
environments in which every ray hits. -/
theorem c8_amended_both_hit_policy_witness :
    (ray_cast_within_binary_image_for_profile_match envC8 dsC8).pt1 =
      ⟨((envC8.d2l (rc_p0 envC8 dsC8)).x : ℚ), ((envC8.d2l (rc_p0 envC8 dsC8)).y : ℚ)⟩ ∧
    (ray_cast_within_gradient_image_for_profile_match envG (7/20) dsC8).pt1 =
      ⟨((envG.d2l (if grad_hv envG (7/20) dsC8 0 > grad_hv envG (7/20) dsC8 1
          then grad_hi envG (7/20) dsC8 0 else grad_hi envG (7/20) dsC8 1)).x : ℚ),
       ((envG.d2l (if grad_hv envG (7/20) dsC8 0 > grad_hv envG (7/20) dsC8 1
          then grad_hi envG (7/20) dsC8 0 else grad_hi envG (7/20) dsC8 1)).y : ℚ)⟩ :=
  ⟨c8_amended_both_hit_policy.1 envC8 dsC8
      (by simp [bin_hit, envC8, envBase])
      (by simp [bin_hit, envC8, envBase]),
   c8_amended_both_hit_policy.2 envG (7/20) dsC8
      (by norm_num [grad_hv, rc_ray_ep, envG, envC8, envBase])
      (by norm_num [grad_hv, rc_ray_ep, envG, envC8, envBase])⟩

/-- Squared length of a scalar multiple. -/
lemma len2_smul (a : ℚ) (v : Vec2) : len2 (v2smul a v) = a * a * len2 v := by
  simp [len2, dot2, v2smul]
  ring

/-- C7: in `mode_2`, a pointer-move whose scalar projection ratio onto the
minor-axis guide segment falls outside `[0,1]` leaves the base ellipse
completely unchanged; when the ratio lies inside `[0,1]` (and the oracle
square roots are the true square roots of the relevant squared lengths, the
major axis is nondegenerate and the semi-major length positive), the
ellipse's drawn minor-axis point `points[2]` becomes exactly the orthogonal
projection of the mouse onto the guide segment. -/
theorem c7_minor_axis_projection (env : Env) (s : MState) (x y : ℚ)
    (h2 : s.mode = .mode_2) (hc : s.comp_type = .generalized_cylinder)
    (hl : s.left_click = false) :
    ((minor_ratio env s.first_ellipse ⟨x, y⟩ < 0
        ∨ 1 < minor_ratio env s.first_ellipse ⟨x, y⟩) →
      (stepEvent env (.move x y) s).first_ellipse = s.first_ellipse) ∧
    (∀ L1 L2 : ℚ,
      L1 = env.sqrtQ (len2 (perpOf s.first_ellipse)) →
      L1 * L1 = len2 (perpOf s.first_ellipse) →
      0 < L1 →
      0 < s.first_ellipse.smj_axis →
      L2 = env.sqrtQ (len2 (minor_guide_vec env s.first_ellipse)) →
      L2 * L2 = len2 (minor_guide_vec env s.first_ellipse) →
      0 ≤ L2 →
      0 ≤ minor_ratio env s.first_ellipse ⟨x, y⟩ →
      minor_ratio env s.first_ellipse ⟨x, y⟩ ≤ 1 →
      (stepEvent env (.move x y) s).first_ellipse.p2
        = orthProjOnSegment (minor_guide_pt0 env s.first_ellipse)
            (minor_guide_pt1 env s.first_ellipse) ⟨x, y⟩) := by
  have hstep : stepEvent env (.move x y) s
      = calculate_ellipse env { s with mouse := ⟨x, y⟩ } := by
    simp [stepEvent, model_update, h2, hc, hl]
  constructor
  · intro hout
    rw [hstep]
    unfold calculate_ellipse
    rw [if_neg]
    rintro ⟨hr0, hr1⟩
    rcases hout with hout | hout <;> dsimp only at hr0 hr1 <;> linarith
  · intro L1 L2 hL1 hL1sq hL1pos hsmj hL2 hL2sq hL2nn hr0 hr1
    have hL1ne : L1 ≠ 0 := ne_of_gt hL1pos
    have hsmjne : s.first_ellipse.smj_axis ≠ 0 := ne_of_gt hsmj
    -- the guide vector is the scaled perpendicular
    have hvec : minor_guide_vec env s.first_ellipse
        = v2smul (2 * s.first_ellipse.smj_axis / L1) (perpOf s.first_ellipse) := by
      unfold minor_guide_vec minor_guide_pt1 minor_guide_pt0 osgNormalize2
      rw [← hL1, if_pos hL1pos]
      ext <;> simp [v2smul] <;> ring
    have hlen : len2 (minor_guide_vec env s.first_ellipse)
        = (2 * s.first_ellipse.smj_axis) * (2 * s.first_ellipse.smj_axis) := by
      rw [hvec, len2_smul, ← hL1sq]
      field_simp
    have hL2val : L2 = 2 * s.first_ellipse.smj_axis := by
      have h4 : L2 * L2 = (2 * s.first_ellipse.smj_axis)
          * (2 * s.first_ellipse.smj_axis) := by rw [hL2sq, hlen]
      exact (mul_self_inj hL2nn (by positivity)).mp h4
    have hL2pos : 0 < L2 := by rw [hL2val]; positivity
    rw [hstep]
    unfold calculate_ellipse
    rw [if_pos ⟨hr0, hr1⟩]
    show (update_minor_axis env s.first_ellipse _).p2 = _
    unfold update_minor_axis
    show v2smul (2 * minor_ratio env s.first_ellipse ⟨x, y⟩
        * s.first_ellipse.smj_axis)
        (osgNormalize2 env (minor_guide_pt1 env s.first_ellipse
          - minor_guide_pt0 env s.first_ellipse))
        + minor_guide_pt0 env s.first_ellipse = _
    have hn2 : osgNormalize2 env (minor_guide_pt1 env s.first_ellipse
        - minor_guide_pt0 env s.first_ellipse)
        = ⟨(minor_guide_vec env s.first_ellipse).x / L2,
           (minor_guide_vec env s.first_ellipse).y / L2⟩ := by
      show osgNormalize2 env (minor_guide_vec env s.first_ellipse) = _
      unfold osgNormalize2
      rw [← hL2]
      dsimp only
      rw [if_pos hL2pos]
    rw [hn2]
    show v2smul (2 * minor_ratio env s.first_ellipse ⟨x, y⟩
          * s.first_ellipse.smj_axis)
        ⟨(minor_guide_vec env s.first_ellipse).x / L2,
         (minor_guide_vec env s.first_ellipse).y / L2⟩
        + minor_guide_pt0 env s.first_ellipse
      = v2smul (minor_ratio env s.first_ellipse ⟨x, y⟩)
          (minor_guide_vec env s.first_ellipse)
        + minor_guide_pt0 env s.first_ellipse
    ext <;>
      simp only [v2_add_x, v2_add_y, v2smul_x, v2smul_y] <;>
      rw [hL2val] <;>
      field_simp <;>
      ring

/-- Oracle environment whose square root is exact on the argument `4` used
by the witness configuration. -/
def envW : Env := { envBase with sqrtQ := fun q => if q = 4 then 2 else 0 }

/-- Witness base ellipse: major axis from `(-1,0)` to `(1,0)`, semi-major
length 1. -/
def eC7 : Ellipse2D := ⟨⟨0, 0⟩, 1, 0, ⟨-1, 0⟩, ⟨1, 0⟩, ⟨0, 0⟩, ⟨0, 0⟩⟩

/-- Witness `mode_2` state holding `eC7`. -/
def sC7 : MState :=
  { (initState envW 0) with mode := DrawingMode.mode_2, first_ellipse := eC7 }

/-- C7 witness: the in-range branch evaluated on a concrete configuration —
the mouse at `(5,0)` projects onto the guide segment from `(0,-1)` to
`(0,1)` with ratio `1/2`, and the committed minor-axis point is exactly the
orthogonal projection. -/
theorem c7_minor_axis_projection_witness :
    (stepEvent envW (.move 5 0) sC7).first_ellipse.p2
      = orthProjOnSegment (minor_guide_pt0 envW sC7.first_ellipse)
          (minor_guide_pt1 envW sC7.first_ellipse) ⟨5, 0⟩ :=
  (c7_minor_axis_projection envW sC7 5 0 rfl rfl rfl).2 2 2
    (by norm_num [envW, envBase, perpOf, len2, dot2, sC7, eC7, initState])
    (by norm_num [perpOf, len2, dot2, sC7, eC7, initState])
    (by norm_num)
    (by norm_num [sC7, eC7, initState])
    (by norm_num [envW, envBase, minor_guide_vec, minor_guide_pt1,
      minor_guide_pt0, osgNormalize2, perpOf, v2smul, len2, dot2, sC7, eC7,
      initState])
    (by norm_num [minor_guide_vec, minor_guide_pt1, minor_guide_pt0,
      osgNormalize2, perpOf, v2smul, len2, dot2, sC7, eC7, initState, envW,
      envBase])
    (by norm_num)
    (by norm_num [minor_ratio, minor_guide_vec, minor_guide_pt1,
      minor_guide_pt0, osgNormalize2, perpOf, v2smul, len2, dot2, sC7, eC7,
      initState, envW, envBase])
    (by norm_num [minor_ratio, minor_guide_vec, minor_guide_pt1,
      minor_guide_pt0, osgNormalize2, perpOf, v2smul, len2, dot2, sC7, eC7,
      initState, envW, envBase])

@[simp] lemma est_persp_id_source (env : Env) (s : MState) :
    (estimate_first_circle_under_persective_projection env s).id_source
      = s.id_source := rfl

@[simp] lemma add_planar_persp_id_source (env : Env) (s : MState) :
    (add_planar_section_to_the_generalized_cylinder_under_perspective_projection
      env s).id_source = s.id_source :=
  add_persp_id_source env s

/-- One `model_update` either leaves the component-id counter unchanged, or
performs exactly one wrapping increment and creates the cylinder carrying
the fresh id. -/
lemma model_update_id (env : Env) (s : MState) :
    (model_update env s).id_source = s.id_source ∨
    ((model_update env s).id_source = (s.id_source + 1) % uintCardinal ∧
      ∃ g, (model_update env s).gcyl = some g ∧
        g.componentId = (model_update env s).id_source) := by
  simp only [model_update]
  split_ifs
  all_goals first
    | exact Or.inl rfl
    | (apply Or.inl
       simp
       done)
    | (refine Or.inr ⟨?_, ?_⟩
       · simp [init_spine_drawing_mode, GenerateComponentId]
       · exact ⟨_, rfl, by simp [init_spine_drawing_mode, GenerateComponentId]⟩)

/-- One pointer event either keeps the id counter or performs one wrapping
increment, creating the cylinder that carries the fresh id. -/
lemma stepEvent_id (env : Env) (e : Event) (s : MState) :
    (stepEvent env e s).id_source = s.id_source ∨
    ((stepEvent env e s).id_source = (s.id_source + 1) % uintCardinal ∧
      ∃ g, (stepEvent env e s).gcyl = some g ∧
        g.componentId = (stepEvent env e s).id_source) := by
  cases e with
  | lclick x y =>
    simp only [stepEvent]
    have h := model_update_id env
      { s with left_click := true, mouse := ⟨x, y⟩,
               vertices := s.vertices ++ [Vec2.mk x y] }
    simpa using h
  | rclick x y =>
    by_cases h : s.mode = .mode_3
    · simp only [stepEvent]
      rw [if_pos h]
      have h' := model_update_id env
        { s with right_click := true, mouse := ⟨x, y⟩,
                 vertices := s.vertices ++ [Vec2.mk x y] }
      simpa using h'
    · simp only [stepEvent]
      rw [if_neg h]
      exact Or.inl rfl
  | move x y =>
    by_cases h : s.mode = .mode_0
    · simp only [stepEvent]
      rw [if_neg (not_not_intro h)]
      exact Or.inl rfl
    · simp only [stepEvent]
      rw [if_pos h]
      have h' := model_update_id env { s with mouse := ⟨x, y⟩ }
      simpa using h'

/-- One API operation either keeps the id counter or performs one wrapping
increment, creating the cylinder that carries the fresh id; the deletion
entry points never touch the counter. -/
lemma stepOp_id (env : Env) (o : Op) (s : MState) :
    (stepOp env o s).id_source = s.id_source ∨
    ((stepOp env o s).id_source = (s.id_source + 1) % uintCardinal ∧
      ∃ g, (stepOp env o s).gcyl = some g ∧
        g.componentId = (stepOp env o s).id_source) := by
  cases o with
  | ev e => exact stepEvent_id env e s
  | deleteModel => exact Or.inl rfl
  | deleteSelected => exact Or.inl rfl
  | deleteLastSection =>
    simp only [stepOp]
    rcases s.gcyl with _ | g
    · exact Or.inl rfl
    · dsimp only
      split_ifs <;> exact Or.inl rfl

/-- The wrapping increment never maps a counter value to itself. -/
lemma succ_mod_ne (c : ℕ) : c ≠ (c + 1) % uintCardinal := by
  have hcard : uintCardinal = 4294967296 := by norm_num [uintCardinal]
  rw [hcard]
  omega

/-- One unfolding step of `createdIds`. -/
lemma createdIds_cons (env : Env) (o : Op) (rest : List Op) (s : MState) :
    createdIds env (o :: rest) s =
      (if s.id_source ≠ (stepOp env o s).id_source then
        match (stepOp env o s).gcyl with
        | some g => [g.componentId]
        | none => []
       else []) ++ createdIds env rest (stepOp env o s) := rfl

/-- As long as the id counter does not wrap during the run — the starting
counter value plus the number of assigned identifiers stays below `2^32` —
every assigned identifier exceeds the starting counter value and the
chronological id list is strictly increasing. -/
lemma createdIds_no_wrap (env : Env) : ∀ (ops : List Op) (s : MState),
    s.id_source + (createdIds env ops s).length < uintCardinal →
    (∀ x ∈ createdIds env ops s, s.id_source < x) ∧
    List.Pairwise (· < ·) (createdIds env ops s) := by
  intro ops
  induction ops with
  | nil =>
    intro s _
    exact ⟨by simp [createdIds], by simp [createdIds]⟩
  | cons o rest ih =>
    intro s hbound
    by_cases hne : s.id_source = (stepOp env o s).id_source
    · have hlist : createdIds env (o :: rest) s
          = createdIds env rest (stepOp env o s) := by
        rw [createdIds_cons, if_neg (not_not_intro hne)]
        simp
      rw [hlist] at hbound ⊢
      rw [hne] at hbound
      obtain ⟨hgt, hpw⟩ := ih (stepOp env o s) hbound
      exact ⟨fun x hx => hne ▸ hgt x hx, hpw⟩
    · rcases stepOp_id env o s with heq | ⟨hid, g, hg, hgid⟩
      · exact absurd heq.symm hne
      · have hlist : createdIds env (o :: rest) s
            = g.componentId :: createdIds env rest (stepOp env o s) := by
          rw [createdIds_cons, if_pos hne, hg]
          rfl
        rw [hlist] at hbound ⊢
        simp only [List.length_cons] at hbound
        have hsucc : s.id_source + 1 < uintCardinal := by omega
        have hid' : (stepOp env o s).id_source = s.id_source + 1 := by
          rw [hid, Nat.mod_eq_of_lt hsucc]
        have hbound' : (stepOp env o s).id_source
            + (createdIds env rest (stepOp env o s)).length < uintCardinal := by
          rw [hid']
          omega
        obtain ⟨hgt, hpw⟩ := ih (stepOp env o s) hbound'
        have hgid' : g.componentId = s.id_source + 1 := by rw [hgid, hid']
        constructor
        · intro x hx
          rcases List.mem_cons.mp hx with hx | hx
          · rw [hx, hgid']
            omega
          · have := hgt x hx
            rw [hid'] at this
            omega
        · refine List.Pairwise.cons ?_ hpw
          intro x hx
          have := hgt x hx
          rw [hid'] at this
          rw [hgid']
          omega

/-- An operation sequence that models two complete cylinders: three clicks
create the first cylinder, a right-click finishes it, and three further
clicks create a second cylinder. -/
def opsTwoCylinders : List Op :=
  [.ev (.lclick 0 0), .ev (.lclick 4 0), .ev (.lclick 2 2),
   .ev (.rclick 2 8), .ev (.lclick 0 0), .ev (.lclick 4 0),
   .ev (.lclick 2 2)]

/-- Running `opsTwoCylinders` from counter `c` assigns exactly the two ids
`(c+1) % 2^32` and `((c+1) % 2^32 + 1) % 2^32`, in this order. -/
lemma createdIds_two_cylinders (c : ℕ) :
    createdIds envBase opsTwoCylinders (initState envBase c)
      = [(c + 1) % uintCardinal,
         ((c + 1) % uintCardinal + 1) % uintCardinal] := by
  set s0 := initState envBase c with hs0
  have c1 := stepEvent_lclick_mode0 envBase 0 0 s0 rfl rfl
  set s1 := stepEvent envBase (.lclick 0 0) s0 with hs1
  have e1id : s1.id_source = c := by rw [c1]; rfl
  have c2 := stepEvent_lclick_mode1 envBase 4 0 s1 (by rw [c1]) (by rw [c1]; rfl)
  set s2 := stepEvent envBase (.lclick 4 0) s1 with hs2
  have e2id : s2.id_source = c := by rw [c2]; exact e1id
  have c3f := stepEvent_lclick_mode2 envBase 2 2 s2 (by rw [c2]) (by rw [c2]; rw [c1]; rfl)
  set s3 := stepEvent envBase (.lclick 2 2) s2 with hs3
  have e3id : s3.id_source = (c + 1) % uintCardinal := by
    rw [c3f.2.2.2.2.2.1, e2id]
  have e3gcyl : s3.gcyl = some ⟨(c + 1) % uintCardinal, [s3.first_circle]⟩ := by
    have := c3f.2.2.2.2.2.2
    rw [this, e2id]
  have f_spd : s3.spd_mode = .piecewise_linear := by
    rw [c3f.2.2.2.1, c2]
    show s1.spd_mode = _
    rw [c1]
    rfl
  have f_comp : s3.comp_type = .generalized_cylinder := by
    rw [c3f.2.2.2.2.1, c2]
    show s1.comp_type = _
    rw [c1]
    rfl
  have r4 := stepEvent_rclick_mode3 envBase 2 8 s3 c3f.1 f_comp f_spd
    ⟨(c + 1) % uintCardinal, [s3.first_circle]⟩ e3gcyl
  set s4 := stepEvent envBase (.rclick 2 8) s3 with hs4
  have e4id : s4.id_source = (c + 1) % uintCardinal := by
    rw [r4.2.2.2.2.1]
    exact e3id
  have r4comp : s4.comp_type = .generalized_cylinder :=
    r4.2.2.2.2.2.2.1.trans f_comp
  have c5 := stepEvent_lclick_mode0 envBase 0 0 s4 r4.1 r4comp
  set s5 := stepEvent envBase (.lclick 0 0) s4 with hs5
  have e5id : s5.id_source = (c + 1) % uintCardinal := by rw [c5]; exact e4id
  have c6 := stepEvent_lclick_mode1 envBase 4 0 s5 (by rw [c5]) (by rw [c5]; exact r4comp)
  set s6 := stepEvent envBase (.lclick 4 0) s5 with hs6
  have e6id : s6.id_source = (c + 1) % uintCardinal := by rw [c6]; exact e5id
  have c7f := stepEvent_lclick_mode2 envBase 2 2 s6 (by rw [c6]) (by rw [c6]; rw [c5]; exact r4comp)
  set s7 := stepEvent envBase (.lclick 2 2) s6 with hs7
  have e7id : s7.id_source = ((c + 1) % uintCardinal + 1) % uintCardinal := by
    rw [c7f.2.2.2.2.2.1, e6id]
  have e7gcyl : s7.gcyl
      = some ⟨((c + 1) % uintCardinal + 1) % uintCardinal, [s7.first_circle]⟩ := by
    have := c7f.2.2.2.2.2.2
    rw [this, e6id]
  -- evaluate `createdIds` from the back of the list forwards
  have t6 : createdIds envBase [.ev (.lclick 2 2)] s6
      = [((c + 1) % uintCardinal + 1) % uintCardinal] := by
    rw [createdIds_cons]
    have hst : stepOp envBase (.ev (.lclick 2 2)) s6 = s7 := by rw [hs7]; rfl
    rw [hst, if_pos (by rw [e6id, e7id]; exact succ_mod_ne _), e7gcyl]
    rfl
  have t5 : createdIds envBase [.ev (.lclick 4 0), .ev (.lclick 2 2)] s5
      = [((c + 1) % uintCardinal + 1) % uintCardinal] := by
    rw [createdIds_cons]
    have hst : stepOp envBase (.ev (.lclick 4 0)) s5 = s6 := by rw [hs6]; rfl
    rw [hst, if_neg (not_not_intro (e5id.trans e6id.symm)), t6]
    rfl
  have t4 : createdIds envBase
      [.ev (.lclick 0 0), .ev (.lclick 4 0), .ev (.lclick 2 2)] s4
      = [((c + 1) % uintCardinal + 1) % uintCardinal] := by
    rw [createdIds_cons]
    have hst : stepOp envBase (.ev (.lclick 0 0)) s4 = s5 := by rw [hs5]; rfl
    rw [hst, if_neg (not_not_intro (e4id.trans e5id.symm)), t5]
    rfl
  have t3 : createdIds envBase
      [.ev (.rclick 2 8), .ev (.lclick 0 0), .ev (.lclick 4 0),
       .ev (.lclick 2 2)] s3
      = [((c + 1) % uintCardinal + 1) % uintCardinal] := by
    rw [createdIds_cons]
    have hst : stepOp envBase (.ev (.rclick 2 8)) s3 = s4 := by rw [hs4]; rfl
    rw [hst, if_neg (not_not_intro (e3id.trans e4id.symm)), t4]
    rfl
  have t2 : createdIds envBase
      [.ev (.lclick 2 2), .ev (.rclick 2 8), .ev (.lclick 0 0),
       .ev (.lclick 4 0), .ev (.lclick 2 2)] s2
      = [(c + 1) % uintCardinal,
         ((c + 1) % uintCardinal + 1) % uintCardinal] := by
    rw [createdIds_cons]
    have hst : stepOp envBase (.ev (.lclick 2 2)) s2 = s3 := by rw [hs3]; rfl
    rw [hst, if_pos (by rw [e2id, e3id]; exact succ_mod_ne _), e3gcyl, t3]
    rfl
  have t1 : createdIds envBase
      [.ev (.lclick 4 0), .ev (.lclick 2 2), .ev (.rclick 2 8),
       .ev (.lclick 0 0), .ev (.lclick 4 0), .ev (.lclick 2 2)] s1
      = [(c + 1) % uintCardinal,
         ((c + 1) % uintCardinal + 1) % uintCardinal] := by
    rw [createdIds_cons]
    have hst : stepOp envBase (.ev (.lclick 4 0)) s1 = s2 := by rw [hs2]; rfl
    rw [hst, if_neg (not_not_intro (e1id.trans e2id.symm)), t2]
    rfl
  show createdIds envBase
      (.ev (.lclick 0 0) :: [.ev (.lclick 4 0), .ev (.lclick 2 2),
        .ev (.rclick 2 8), .ev (.lclick 0 0), .ev (.lclick 4 0),
        .ev (.lclick 2 2)]) s0 = _
  rw [createdIds_cons]
  have hst : stepOp envBase (.ev (.lclick 0 0)) s0 = s1 := by rw [hs1]; rfl
  rw [hst, if_neg (not_not_intro (show s0.id_source = s1.id_source from e1id.symm)), t1]
  rfl

/-- C9 (counterexample): the component-id counter is a C++ `unsigned int`
and `GenerateComponentId` pre-increments it, so it wraps modulo `2^32`.
Starting a run with the counter at `2^32 - 2`, creating two cylinders
assigns the ids `2^32 - 1` and then `0`: the chronological id list is not
strictly increasing, refuting the unconditional never-reused /
strictly-larger reading of the claim. -/
theorem c9_counterexample :
    createdIds envBase opsTwoCylinders (initState envBase (uintCardinal - 2))
      = [uintCardinal - 1, 0] ∧
    ¬ List.Pairwise (· < ·)
      (createdIds envBase opsTwoCylinders (initState envBase (uintCardinal - 2))) := by
  have h := createdIds_two_cylinders (uintCardinal - 2)
  have hcard : uintCardinal = 4294967296 := by norm_num [uintCardinal]
  have hv1 : (uintCardinal - 2 + 1) % uintCardinal = uintCardinal - 1 := by
    rw [hcard]
  have hv2 : ((uintCardinal - 2 + 1) % uintCardinal + 1) % uintCardinal = 0 := by
    rw [hcard]
  rw [h, hv2, hv1]
  refine ⟨rfl, fun hp => ?_⟩
  have h01 := (List.pairwise_cons.mp hp).1 0 (by simp)
  omega

/-- C9 (amended): component ids come from a single process-wide counter that
`GenerateComponentId` pre-increments modulo `2^32` (the source's `unsigned
int`); as long as the counter does not wrap, the returned id is strictly
larger than the previous counter value, and over any operation sequence
during which the counter stays below `2^32` the chronological list of
assigned ids is strictly increasing — so within such a run later cylinders
get strictly larger ids and no id is reused, even across deletions. -/
theorem c9_amended_component_ids :
    (∀ c : ℕ, c + 1 < uintCardinal →
      c < (GenerateComponentId c).1 ∧
      (GenerateComponentId c).2 = (GenerateComponentId c).1) ∧
    ∀ env ops s,
      s.id_source + (createdIds env ops s).length < uintCardinal →
      List.Pairwise (· < ·) (createdIds env ops s) := by
  constructor
  · intro c h
    refine ⟨?_, rfl⟩
    show c < (c + 1) % uintCardinal
    rw [Nat.mod_eq_of_lt h]
    omega
  · intro env ops s h
    exact (createdIds_no_wrap env ops s h).2

/-- Closed witness for the amended C9 theorem: at counter `0` the first id
is `1 > 0`, and the two-cylinder run from counter `0` satisfies the no-wrap
hypothesis and yields a strictly increasing id list. -/
theorem c9_amended_component_ids_witness :
    (0 < (GenerateComponentId 0).1 ∧
      (GenerateComponentId 0).2 = (GenerateComponentId 0).1) ∧
    List.Pairwise (· < ·)
      (createdIds envBase opsTwoCylinders (initState envBase 0)) := by
  constructor
  · exact c9_amended_component_ids.1 0 (by norm_num [uintCardinal])
  · apply c9_amended_component_ids.2
    show (0 : ℕ) + (createdIds envBase opsTwoCylinders (initState envBase 0)).length
        < uintCardinal
    rw [createdIds_two_cylinders 0]
    norm_num [uintCardinal]
